import Mathlib

/-!
# FinTec Pro (`script.js`): ledger document, migration, aggregation, add, remove, edit, backup

A shallow embedding of the ledger core of `src/script.js`.

Conventions of the embedding

* A JavaScript object is a structure; a property the code tests for presence
  (`!x.p`, `x.p || d`) is an `Option` field, `none` standing for an absent property.
* A string is falsy exactly when it is empty, an object or array is always truthy.
* A JavaScript number is a `Number`: an IEEE 754 binary64 value (`NaN`, an infinity, or a
  finite value with its sign), with the addition and subtraction of the language, rounded to
  nearest, ties to even. The `id` of an item, which the code only compares, is an `Int`.
* The keys `_settings` and `_metadata` of the stored document are the fields `settings` and
  `metadata`; every other key is an entry of `entries`, holding a month-shaped object.
* The active month `state.currentMonth` is the value of the month selector, a month key
  `YYYY-MM`; `Doc.month` is `state.data[key]` for such a key.
* The clock (`new Date().toISOString()`, `Date.now()`) and the form fields read from the page
  are explicit parameters.
* A `TypeError` raised by dereferencing `undefined` is the outcome `threw`.
-/

namespace Finantec

/-! ## JavaScript numbers -/

/-- A JavaScript number, an IEEE 754 binary64 value: `NaN`, an infinity, or the finite value
`(-1)^neg * m * 2^e`. A finite value is kept with `m` odd, and the two zeros as `m = 0`, `e = 0`,
so that equal numbers are equal terms; a binary64 value has `m < 2^53`, `e ≥ -1074` and
`m * 2^e < 2^1024`. -/
inductive Number where
  | nan
  | inf (neg : Bool)
  | fin (neg : Bool) (m : Nat) (e : Int)
deriving DecidableEq, Repr

/-- The number of binary digits of `n`; the first argument bounds the recursion. -/
def bitLength : Nat → Nat → Nat
  | 0, _ => 0
  | fuel + 1, n => if n = 0 then 0 else bitLength fuel (n / 2) + 1

/-- The pair `(m, e)` with its trailing zero bits moved from `m` into the exponent; the first
argument bounds the recursion. -/
def stripZeros : Nat → Nat → Int → Nat × Int
  | 0, m, e => (m, e)
  | fuel + 1, m, e => if m % 2 = 0 ∧ m ≠ 0 then stripZeros fuel (m / 2) (e + 1) else (m, e)

/-- The binary64 value nearest to `(-1)^neg * n * 2^e`, for `e ≥ -1074`: the magnitude is cut to
53 significant bits, rounded to nearest with ties to even, and a result of `2^1024` or more is
the infinity of that sign. -/
def Number.round (neg : Bool) (n : Nat) (e : Int) : Number :=
  if n = 0 then .fin neg 0 0
  else
    let shift := bitLength n n - 53
    let q := n / 2 ^ shift
    let r := n % 2 ^ shift
    let half := 2 ^ (shift - 1)
    let q' := if shift = 0 then q else if r > half ∨ (r = half ∧ q % 2 = 1) then q + 1 else q
    let e' := e + shift
    if (bitLength q' q' : Int) + e' > 1024 then .inf neg
    else
      let me := stripZeros q' q' e'
      .fin neg me.1 me.2

/-- The operator `+` on numbers: `NaN` is absorbing, opposite infinities give `NaN`, and two
finite values are added exactly and then rounded; an exact sum of zero is `+0`, except that
`-0 + -0` is `-0`. -/
def Number.add : Number → Number → Number
  | .nan, _ => .nan
  | _, .nan => .nan
  | .inf a, .inf b => if a = b then .inf a else .nan
  | .inf a, .fin _ _ _ => .inf a
  | .fin _ _ _, .inf b => .inf b
  | .fin na ma ea, .fin nb mb eb =>
    let e := min ea eb
    let a : Int :=
      if na then -((ma * 2 ^ (ea - e).toNat : Nat) : Int)
      else ((ma * 2 ^ (ea - e).toNat : Nat) : Int)
    let b : Int :=
      if nb then -((mb * 2 ^ (eb - e).toNat : Nat) : Int)
      else ((mb * 2 ^ (eb - e).toNat : Nat) : Int)
    let s := a + b
    if s = 0 then .fin (na && nb) 0 0 else Number.round (decide (s < 0)) s.natAbs e

/-- The unary operator `-`. -/
def Number.neg : Number → Number
  | .nan => .nan
  | .inf a => .inf (!a)
  | .fin a m e => .fin (!a) m e

/-- The operator `-` on numbers. -/
def Number.sub (a b : Number) : Number :=
  Number.add a (Number.neg b)

instance : Add Number := ⟨Number.add⟩

instance : Sub Number := ⟨Number.sub⟩

instance : Neg Number := ⟨Number.neg⟩

instance (n : Nat) : OfNat Number n := ⟨Number.round false n 0⟩

/-- The test `x > 0`. -/
def Number.gtZero : Number → Bool
  | .nan => false
  | .inf neg => !neg
  | .fin neg m _ => !neg && m != 0

/-- The test `isNaN(x)`. -/
def Number.isNaN : Number → Bool
  | .nan => true
  | _ => false

/-- Truthiness of a number: neither `NaN` nor a zero. -/
def Number.truthy : Number → Bool
  | .nan => false
  | .inf _ => true
  | .fin _ m _ => m != 0

/-! ## Data model -/

/-- A transaction item of any of the three kinds (`incomes`, `expenses`, `investments`).
Expense items carry `planned` and `date`, investment items carry `type` and `date`. -/
structure Item where
  id : Int
  name : String
  value : Number
  color : Option String
  planned : Option Number
  date : Option String
  type : Option String
deriving DecidableEq, Repr

/-- The object stored under a month key. -/
structure Month where
  incomes : Option (List Item)
  expenses : Option (List Item)
  investments : Option (List Item)
deriving DecidableEq, Repr

/-- The object `_settings.colors`. -/
structure Colors where
  income : Option String
  expense : Option String
  invest : Option String
deriving DecidableEq, Repr

/-- The object `_settings`. -/
structure Settings where
  colors : Option Colors
  theme : Option String
deriving DecidableEq, Repr

/-- The object `_metadata`. -/
structure Metadata where
  app : Option String
  version : Option String
  logo : Option String
  importedAt : Option String
  exportedAt : Option String
  migratedFromOldFormat : Option Bool
deriving DecidableEq, Repr

/-- The persisted document (`state.data`). -/
structure Doc where
  settings : Option Settings
  metadata : Option Metadata
  entries : List (String × Month)
deriving DecidableEq, Repr

/-! ## JavaScript helpers -/

/-- Truthiness of a possibly absent string: present and non-empty. -/
def truthy : Option String → Bool
  | some s => s != ""
  | none => false

/-- The expression `a || b` on possibly absent strings. -/
def jsOr (a b : Option String) : Option String :=
  if truthy a then a else b

/-- The test `key.match(/^\d{4}-\d{2}$/)`: four digits, a hyphen, two digits, nothing else. -/
def isMonthKey (key : String) : Bool :=
  match key.toList with
  | [a, b, c, d, h, e, f] =>
    a.isDigit && b.isDigit && c.isDigit && d.isDigit && h == '-' && e.isDigit && f.isDigit
  | _ => false

/-! ## migrateData (lines 117-178) -/

/-- The constant `defaultColors` of `migrateData`. -/
def defaultColors : Colors :=
  { income := some "#04d361", expense := some "#e83f5b", invest := some "#8257e6" }

/-- The statements of lines 124-142: `_settings` after migration. -/
def migrateSettings : Option Settings → Settings
  | none => { colors := some defaultColors, theme := some "dark" }
  | some s =>
    let colors : Colors :=
      match s.colors with
      | none => defaultColors
      | some c =>
        { income := jsOr c.income defaultColors.income
          expense := jsOr c.expense defaultColors.expense
          invest := jsOr c.invest defaultColors.invest }
    { colors := some colors
      theme := if truthy s.theme then s.theme else some "dark" }

/-- The statements of lines 145-153: `_metadata` after migration. -/
def migrateMetadata (now : String) (isOldFormat : Bool) : Option Metadata → Metadata
  | some m => m
  | none =>
    { app := some "FinTec Pro"
      version := some "1.0"
      logo := some "logofinantec.png"
      importedAt := some now
      exportedAt := none
      migratedFromOldFormat := some isOldFormat }

/-- The body `if (!item.color) item.color = c` of the three `forEach` loops. -/
def fillColor (c : Option String) (item : Item) : Item :=
  if truthy item.color then item else { item with color := c }

/-- The statement `if (!data[key].xs) data[key].xs = []`. -/
def ensureList : Option (List Item) → List Item
  | some xs => xs
  | none => []

/-- The body of the `if (key.match(...))` block, lines 158-173, on the object under `key`. -/
def migrateMonth (isOldFormat : Bool) (m : Month) : Month :=
  let incomes := ensureList m.incomes
  let expenses := ensureList m.expenses
  let investments := ensureList m.investments
  if isOldFormat then
    { incomes := some (incomes.map (fillColor defaultColors.income))
      expenses := some (expenses.map (fillColor defaultColors.expense))
      investments := some (investments.map (fillColor defaultColors.invest)) }
  else
    { incomes := some incomes, expenses := some expenses, investments := some investments }

/-- The callback of `Object.keys(data).forEach`, lines 156-175, on one key of the document. -/
def migrateEntry (isOldFormat : Bool) (e : String × Month) : String × Month :=
  if isMonthKey e.1 then (e.1, migrateMonth isOldFormat e.2) else e

/-- The function `migrateData`; `now` is the value of `new Date().toISOString()`. -/
def migrateData (now : String) (data : Doc) : Doc :=
  let isOldFormat := data.settings.isNone
  { settings := some (migrateSettings data.settings)
    metadata := some (migrateMetadata now isOldFormat data.metadata)
    entries := data.entries.map (migrateEntry isOldFormat) }

/-- The value `data[key]` for a month key `YYYY-MM`. Such a key is neither `_settings` nor
`_metadata` nor the name of a property that every object inherits, so the value is found among
the entries of the document or is `undefined`. -/
def Doc.month (data : Doc) (key : String) : Option Month :=
  data.entries.lookup key

/-! ## Application state -/

/-- The object `state.summary` written by `render`. -/
structure Summary where
  totalIncome : Number
  totalExpense : Number
  totalInvest : Number
  balance : Number
deriving DecidableEq, Repr

/-- What `render` hands to the bar chart: `datasets[0].data` and `datasets[0].backgroundColor`. -/
structure BarData where
  data : List Number
  backgroundColor : List (Option String)
deriving DecidableEq, Repr

/-- What `render` hands to the pie chart: `labels`, `datasets[0].data` and
`datasets[0].backgroundColor`. -/
structure PieData where
  labels : List String
  data : List Number
  backgroundColor : List (Option String)
deriving DecidableEq, Repr

/-- The object `state.editingItem`. -/
structure EditingItem where
  type : String
  id : Int
deriving DecidableEq, Repr

/-- The global `state`, the two chart instances (`none` while the instance is `null`) and the
`finData` entry of the local storage (`none` while it has never been written). -/
structure State where
  currentMonth : String
  data : Doc
  editingItem : Option EditingItem
  summary : Option Summary
  barChart : Option BarData
  pieChart : Option PieData
  stored : Option Doc
deriving DecidableEq, Repr

/-- How a call of an `app` function ends: it runs to its end, it returns the result of
`alert(msg)`, or it raises a `TypeError`. Each carries the state reached at that point. -/
inductive Outcome where
  | done (st : State)
  | alerted (msg : String) (st : State)
  | threw (st : State)
deriving DecidableEq, Repr

/-- The state an outcome carries. -/
def Outcome.state : Outcome → State
  | .done st => st
  | .alerted _ st => st
  | .threw st => st

/-! ## ensureMonthExists (lines 271-279) -/

/-- The object literal with three empty arrays. -/
def emptyMonth : Month :=
  { incomes := some [], expenses := some [], investments := some [] }

/-- The function `app.ensureMonthExists`, for an active month that is a month key. -/
def ensureMonthExists (st : State) : State :=
  match st.data.month st.currentMonth with
  | some _ => st
  | none =>
    { st with data := { st.data with entries := st.data.entries ++ [(st.currentMonth, emptyMonth)] } }

/-! ## render (lines 461-673) -/

/-- The reduction `list.reduce((acc, item) => acc + item.value, 0)`. -/
def total (list : List Item) : Number :=
  list.foldl (fun acc item => acc + item.value) 0

/-- The object `investmentTypes` as first built, lines 624-629, in key order. -/
def investmentTypesInit : List (String × Number) :=
  [("Reserva", 0), ("Ações", 0), ("FIIs", 0), ("Renda Fixa", 0)]

/-- The object `investColors`, lines 644-649. -/
def investColors : List (String × String) :=
  [("Reserva", "#8257e6"), ("Ações", "#6b4fc9"), ("FIIs", "#9c6be6"), ("Renda Fixa", "#b39ddb")]

/-- The expression `item.type || 'Reserva'`. -/
def effectiveType (item : Item) : String :=
  match item.type with
  | some t => if t != "" then t else "Reserva"
  | none => "Reserva"

/-- The callback of `currentData.investments.forEach`, lines 631-636. -/
def addInvestment (investmentTypes : List (String × Number)) (item : Item) :
    List (String × Number) :=
  let type := effectiveType item
  if (investmentTypes.lookup type).isSome then
    investmentTypes.map (fun kv => if kv.1 = type then (kv.1, kv.2 + item.value) else kv)
  else investmentTypes

/-- The object `investmentTypes` after the loop over the investments. -/
def investmentBreakdown (investments : List Item) : List (String × Number) :=
  investments.foldl addInvestment investmentTypesInit

/-- The three `push` calls that add one slice. -/
def pushSlice (p : PieData) (label : String) (value : Number) (color : Option String) :
    PieData :=
  { labels := p.labels ++ [label]
    data := p.data ++ [value]
    backgroundColor := p.backgroundColor ++ [color] }

/-- The callback of `Object.entries(investmentTypes).forEach`, lines 652-658. -/
def addTypeSlice (colors : Colors) (p : PieData) (tv : String × Number) : PieData :=
  if tv.2.gtZero then pushSlice p tv.1 tv.2 (jsOr (investColors.lookup tv.1) colors.invest) else p

/-- The pie series of lines 619-663, from the colours, the totals and the investments. -/
def pieSeries (colors : Colors) (totalExp balance : Number) (investments : List Item) :
    PieData :=
  let safeBalance := if balance.gtZero then balance else 0
  let investmentTypes := investmentBreakdown investments
  let start : PieData :=
    { labels := ["Despesas"], data := [totalExp], backgroundColor := [colors.expense] }
  let withTypes := investmentTypes.foldl (addTypeSlice colors) start
  pushSlice withTypes "Saldo Livre" safeBalance colors.income

/-- The expression `state.data._settings ? state.data._settings.colors : { ...defaults }`. -/
def chartColors (data : Doc) : Option Colors :=
  match data.settings with
  | some s => s.colors
  | none => some defaultColors

/-- The function `app.render`, without the writes to the page. -/
def render (st0 : State) : Outcome :=
  let st := ensureMonthExists st0
  match st.data.month st.currentMonth with
  | none => .threw st
  | some currentData =>
    match currentData.incomes, currentData.expenses, currentData.investments with
    | some incomes, some expenses, some investments =>
      let totalInc := total incomes
      let totalExp := total expenses
      let totalInv := total investments
      let balance := totalInc - (totalExp + totalInv)
      let summary : Summary :=
        { totalIncome := totalInc, totalExpense := totalExp,
          totalInvest := totalInv, balance := balance }
      let st1 : State := { st with summary := some summary }
      -- `renderList` reads `state.data._settings.colors.income`
      match st1.data.settings.bind (fun s => s.colors) with
      | none => .threw st1
      | some _ =>
        match chartColors st1.data with
        | none => .threw st1
        | some colors =>
          let bar : BarData :=
            { data := [totalInc, totalExp, totalInv],
              backgroundColor := [colors.income, colors.expense, colors.invest] }
          let st2 : State := { st1 with barChart := st1.barChart.map (fun _ => bar) }
          let pie : PieData := pieSeries colors totalExp balance investments
          let st3 : State := { st2 with pieChart := st2.pieChart.map (fun _ => pie) }
          -- `app.saveLocal(true)`
          .done { st3 with stored := some st3.data }
    | _, _, _ => .threw st

/-! ## addTransaction (lines 337-394) -/

/-- The fields of the form that `addTransaction` reads for the given kind and suffix:
`value` and `planned` are the results of `parseFloat` (`NaN` included), `itemColor` is the
value of the item colour picker, `none` when the page has no such element. -/
structure Form where
  name : String
  value : Number
  planned : Number
  date : String
  typeInv : String
  itemColor : Option String
deriving DecidableEq, Repr

/-- The expression `picker ? picker.value : state.data._settings.colors.<category>`;
the outer `none` is the `TypeError` of reading through a missing `_settings` or `colors`. -/
def pickColor (form : Form) (data : Doc) (category : Colors → Option String) :
    Option (Option String) :=
  match form.itemColor with
  | some c => some (some c)
  | none =>
    match data.settings.bind (fun s => s.colors) with
    | some colors => some (category colors)
    | none => none

/-- The statement `if (picker) picker.value = state.data._settings.colors.<category>`:
whether it runs without a `TypeError`. -/
def resetPicker (form : Form) (data : Doc) : Bool :=
  match form.itemColor with
  | none => true
  | some _ => (data.settings.bind (fun s => s.colors)).isSome

/-- The assignment `data[key] = m` on the entries of the document. -/
def setEntry : List (String × Month) → String → Month → List (String × Month)
  | [], key, m => [(key, m)]
  | (k, v) :: rest, key, m => if k = key then (k, m) :: rest else (k, v) :: setEntry rest key m

/-- The state after `monthData.<kind>.push(newItem)`, where `m` is `monthData` after the push. -/
def withMonth (st : State) (m : Month) : State :=
  { st with data := { st.data with entries := setEntry st.data.entries st.currentMonth m } }

/-- The part of `addTransaction` after the push: the form is cleared, the picker reset,
and `app.render()` runs. -/
def finishAdd (form : Form) (st : State) : Outcome :=
  if resetPicker form st.data then render st else .threw st

/-- The function `app.addTransaction(type, isMobile)`; `now` is the value of `Date.now()` and
`form` holds the fields of the form selected by `type` and `isMobile`. -/
def addTransaction (now : Int) (form : Form) (type : String) (st0 : State) : Outcome :=
  let st := ensureMonthExists st0
  match st.data.month st.currentMonth with
  | none => .threw st
  | some monthData =>
    if type = "incomes" then
      match pickColor form st.data Colors.income with
      | none => .threw st
      | some color =>
        let val := form.value
        if form.name = "" ∨ val.isNaN then .alerted "Dados inválidos" st
        else
          let newItem : Item :=
            { id := now, name := form.name, value := val, color := color,
              planned := none, date := none, type := none }
          match monthData.incomes with
          | none => .threw st
          | some list =>
            finishAdd form (withMonth st { monthData with incomes := some (list ++ [newItem]) })
    else if type = "expenses" then
      match pickColor form st.data Colors.expense with
      | none => .threw st
      | some color =>
        let planned : Number := if form.planned.truthy then form.planned else 0
        let val := form.value
        if form.name = "" ∨ val.isNaN then
          .alerted "Dados inválidos. Preencha Nome e Valor Real." st
        else
          let newItem : Item :=
            { id := now, name := form.name, value := val, color := color,
              planned := some planned, date := some form.date, type := none }
          match monthData.expenses with
          | none => .threw st
          | some list =>
            finishAdd form (withMonth st { monthData with expenses := some (list ++ [newItem]) })
    else if type = "investments" then
      match pickColor form st.data Colors.invest with
      | none => .threw st
      | some color =>
        let val := form.value
        if form.name = "" ∨ val.isNaN then .alerted "Dados inválidos" st
        else
          let newItem : Item :=
            { id := now, name := form.name, value := val, color := color,
              planned := none, date := some form.date, type := some form.typeInv }
          match monthData.investments with
          | none => .threw st
          | some list =>
            finishAdd form
              (withMonth st { monthData with investments := some (list ++ [newItem]) })
    else render st

/-- The items of the collection `kind` of the month under `key`: the empty list when the month
or the collection is absent, or when `kind` names none of the three collections. -/
def itemsOf (data : Doc) (key kind : String) : List Item :=
  match data.month key with
  | none => []
  | some m =>
    if kind = "incomes" then ensureList m.incomes
    else if kind = "expenses" then ensureList m.expenses
    else if kind = "investments" then ensureList m.investments
    else []

/-! ## removeTransaction (lines 396-400) -/

/-- The value `monthData[type]`: one of the three collections, `undefined` for any other name. -/
def Month.get (m : Month) (type : String) : Option (List Item) :=
  if type = "incomes" then m.incomes
  else if type = "expenses" then m.expenses
  else if type = "investments" then m.investments
  else none

/-- The assignment `monthData[type] = list` for one of the three collections. -/
def Month.set (m : Month) (type : String) (list : List Item) : Month :=
  if type = "incomes" then { m with incomes := some list }
  else if type = "expenses" then { m with expenses := some list }
  else if type = "investments" then { m with investments := some list }
  else m

/-- The function `app.removeTransaction(type, id)`. -/
def removeTransaction (type : String) (id : Int) (st : State) : Outcome :=
  match st.data.month st.currentMonth with
  | none => .threw st
  | some monthData =>
    match monthData.get type with
    | none => .threw st
    | some list =>
      render (withMonth st (monthData.set type (list.filter (fun item => item.id != id))))

/-! ## saveEdit (lines 407-443) -/

/-- The edit fields of the page as `saveEdit` reads them: `none` when the element
`edit-<field>-<id>` does not exist; `plannedField` and `valueField` hold the result of
`parseFloat` on the value of the element (`NaN` included). -/
structure EditForm where
  nameField : Option String
  plannedField : Option Number
  valueField : Option Number
  dateField : Option String
deriving DecidableEq, Repr

/-- The expression `field.value || old` on strings. -/
def strOr (value : String) (old : String) : String :=
  if value != "" then value else old

/-- The expression `field.value || old` where `old` may be absent. -/
def strOrOpt (value : String) (old : Option String) : Option String :=
  if value != "" then some value else old

/-- The expression `parseFloat(field.value) || old` on numbers. -/
def numOr (parsed : Number) (old : Number) : Number :=
  if parsed.truthy then parsed else old

/-- The expression `parseFloat(field.value) || old` where `old` may be absent. -/
def numOrOpt (parsed : Number) (old : Option Number) : Option Number :=
  if parsed.truthy then some parsed else old

/-- The three branches of lines 412-439 on the item found. -/
def applyEdit (form : EditForm) (type : String) (item : Item) : Item :=
  if type = "incomes" then
    match form.nameField, form.valueField with
    | some name, some value =>
      { item with name := strOr name item.name, value := numOr value item.value }
    | _, _ => item
  else if type = "expenses" then
    match form.nameField, form.plannedField, form.valueField, form.dateField with
    | some name, some planned, some value, some date =>
      { item with
        name := strOr name item.name
        planned := numOrOpt planned item.planned
        value := numOr value item.value
        date := strOrOpt date item.date }
    | _, _, _, _ => item
  else if type = "investments" then
    match form.nameField, form.valueField, form.dateField with
    | some name, some value, some date =>
      { item with
        name := strOr name item.name
        value := numOr value item.value
        date := strOrOpt date item.date }
    | _, _, _ => item
  else item

/-- The list after the object returned by `list.find(i => i.id === id)`, the first item with
that id, has been changed in place by `f`. -/
def updateFound (id : Int) (f : Item → Item) : List Item → List Item
  | [] => []
  | x :: rest => if x.id == id then f x :: rest else x :: updateFound id f rest

/-- The function `app.saveEdit(type, id)`; `form` holds the edit fields of the page. -/
def saveEdit (form : EditForm) (type : String) (id : Int) (st : State) : Outcome :=
  match st.data.month st.currentMonth with
  | none => .threw st
  | some monthData =>
    match monthData.get type with
    | none => .threw st
    | some list =>
      match list.find? (fun i => i.id == id) with
      | none => .done st
      | some _ =>
        let st1 := withMonth st (monthData.set type (updateFound id (applyEdit form type) list))
        render { st1 with editingItem := none }

/-! ## downloadData (lines 286-305) -/

/-- The object `dataWithLogo` that `app.downloadData` serialises into the backup file;
`now` is the value of `new Date().toISOString()`. -/
def downloadData (now : String) (data : Doc) : Doc :=
  { data with
    metadata := some
      { app := some "FinTec Pro"
        version := some "1.0"
        logo := some "logofinantec.png"
        importedAt := none
        exportedAt := some now
        migratedFromOldFormat := none } }

/-- The document with the `exportedAt` stamp of its metadata left out. -/
def withoutExportedAt (data : Doc) : Doc :=
  { data with metadata := data.metadata.map (fun m => { m with exportedAt := none }) }

/-- The item with its `color` field left out. -/
def withoutColor (item : Item) : Item :=
  { item with color := none }

/-! ## Sample inputs -/

/-- Witness input of C3: settings with one colour present, one absent, one empty, no theme. -/
def sampleSettings : Settings :=
  { colors := some { income := some "#111111", expense := none, invest := some "" }
    theme := none }

/-- Witness input of C4 and C5: a legacy document (no settings) with one month that has an
income without colour, an income with a colour, no expenses collection and no investments. -/
def legacyDoc : Doc :=
  { settings := none
    metadata := none
    entries :=
      [("2024-01",
        { incomes := some
            [ { id := 1, name := "Salário", value := 100, color := none,
                planned := none, date := none, type := none },
              { id := 2, name := "Bônus", value := 50, color := some "#123456",
                planned := none, date := none, type := none } ]
          expenses := none
          investments := some [] })] }

/-- A sample income, expense or investment with the given id, value and investment type. -/
def sampleItem (id : Int) (value : Number) (type : Option String) : Item :=
  { id := id, name := "item", value := value, color := some "#000000",
    planned := none, date := none, type := type }

/-- A sample state: a migrated document with the single month `2024-01`, both charts built. -/
def sampleState (m : Month) : State :=
  { currentMonth := "2024-01"
    data :=
      { settings := some { colors := some defaultColors, theme := some "dark" }
        metadata := none
        entries := [("2024-01", m)] }
    editingItem := none
    summary := none
    barChart := some { data := [0, 0, 0], backgroundColor := [] }
    pieChart := some { labels := [], data := [0, 0, 0], backgroundColor := [] }
    stored := none }

/-- The month of the aggregation example: incomes 100 and 50, expense 30, investment 20. -/
def exampleMonth : Month :=
  { incomes := some [sampleItem 1 100 none, sampleItem 2 50 none]
    expenses := some [sampleItem 3 30 none]
    investments := some [sampleItem 4 20 (some "Ações")] }

/-- The month of the negative-balance example: income 10, expense 100, no investment. -/
def deficitMonth : Month :=
  { incomes := some [sampleItem 1 10 none]
    expenses := some [sampleItem 2 100 none]
    investments := some [] }

/-- A form with an empty name and the value 5, as `addTransaction` reads it. -/
def emptyNameForm : Form :=
  { name := "", value := 5, planned := Number.nan, date := "", typeInv := "Reserva",
    itemColor := none }

/-- A form with a name and the value 70, no planned amount, as `addTransaction` reads it. -/
def validForm : Form :=
  { name := "Freela", value := 70, planned := Number.nan, date := "2024-01-15",
    typeInv := "Ações", itemColor := none }

/-- A month whose two incomes carry the same id 7. -/
def duplicateIdMonth : Month :=
  { incomes := some [sampleItem 7 100 none, sampleItem 7 50 none]
    expenses := some []
    investments := some [] }

/-- The edit fields of an expense in edit mode: a new name, an empty planned amount,
the value 0 and a new date. -/
def sampleEditForm : EditForm :=
  { nameField := some "Aluguel", plannedField := some Number.nan, valueField := some 0,
    dateField := some "2024-01-10" }

/-- A month with amounts beyond `2^53`: incomes `2^53` and 1, expense `2^53`, and three
investments in `Ações` of `2^53`, 1 and `-2^53`. -/
def largeMonth : Month :=
  { incomes := some [sampleItem 1 9007199254740992 none, sampleItem 2 1 none]
    expenses := some [sampleItem 3 9007199254740992 none]
    investments := some
      [sampleItem 4 9007199254740992 (some "Ações"), sampleItem 5 1 (some "Ações"),
        sampleItem 6 (-9007199254740992) (some "Ações")] }

/-- A month with amounts in cents: incomes written `0.1` and `0.2`, expense written `0.3`. -/
def tenthsMonth : Month :=
  { incomes := some
      [sampleItem 1 (Number.fin false 3602879701896397 (-55)) none,
        sampleItem 2 (Number.fin false 3602879701896397 (-54)) none]
    expenses := some [sampleItem 3 (Number.fin false 5404319552844595 (-54)) none]
    investments := some [] }

/-! ## Auxiliary facts -/

theorem truthy_jsOr_some (a : Option String) (d : String) (hd : d ≠ "") :
    truthy (jsOr a (some d)) = true := by
  cases a with
  | none => simp [jsOr, truthy, hd]
  | some s =>
    by_cases hs : s = ""
    · simp [jsOr, truthy, hs, hd]
    · simp [jsOr, truthy, hs]

theorem jsOr_of_truthy (a b : Option String) (h : truthy a = true) : jsOr a b = a := by
  simp [jsOr, h]

theorem truthy_theme (t : Option String) :
    truthy (if truthy t = true then t else some "dark") = true := by
  have h := truthy_jsOr_some t "dark" (by decide)
  simpa [jsOr] using h

theorem migrateSettings_fixed (s : Option Settings) :
    migrateSettings (some (migrateSettings s)) = migrateSettings s := by
  have hd : truthy (some "dark") = true := by decide
  cases s with
  | none => simp [migrateSettings, defaultColors, jsOr, hd]
  | some s =>
    obtain ⟨colors, theme⟩ := s
    cases colors with
    | none =>
      simp only [migrateSettings, defaultColors, truthy_theme, if_true]
      simp [jsOr]
    | some c =>
      simp only [migrateSettings, defaultColors]
      rw [jsOr_of_truthy _ _ (truthy_jsOr_some c.income _ (by decide)),
        jsOr_of_truthy _ _ (truthy_jsOr_some c.expense _ (by decide)),
        jsOr_of_truthy _ _ (truthy_jsOr_some c.invest _ (by decide))]
      simp [truthy_theme]

theorem migrateMonth_fixed (b : Bool) (m : Month) :
    migrateMonth false (migrateMonth b m) = migrateMonth b m := by
  cases b <;> simp [migrateMonth, ensureList]

theorem migrateEntry_fixed (b : Bool) (e : String × Month) :
    migrateEntry false (migrateEntry b e) = migrateEntry b e := by
  unfold migrateEntry
  by_cases h : isMonthKey e.1 = true
  · simp [h, migrateMonth_fixed]
  · simp [h]

theorem migrateEntry_eq (b : Bool) (k : String) (v : Month) :
    migrateEntry b (k, v) = (k, if isMonthKey k then migrateMonth b v else v) := by
  unfold migrateEntry
  by_cases h : isMonthKey k = true <;> simp [h]

theorem lookup_map_migrateEntry (b : Bool) (key : String) (es : List (String × Month)) :
    (es.map (migrateEntry b)).lookup key
      = (es.lookup key).map (fun m => if isMonthKey key then migrateMonth b m else m) := by
  induction es with
  | nil => simp
  | cons e rest ih =>
    obtain ⟨k, v⟩ := e
    rw [List.map_cons, migrateEntry_eq, List.lookup_cons, List.lookup_cons]
    by_cases hk : key = k
    · subst hk
      simp
    · have hne : (key == k) = false := by simpa using hk
      simp [hne, ih]

theorem month_migrateData (now : String) (D : Doc) (key : String) :
    (migrateData now D).month key
      = (D.month key).map
          (fun m => if isMonthKey key then migrateMonth D.settings.isNone m else m) := by
  simp [migrateData, Doc.month, lookup_map_migrateEntry]

theorem map_withoutColor_fillColor (c : Option String) (xs : List Item) :
    (xs.map (fillColor c)).map withoutColor = xs.map withoutColor := by
  rw [List.map_map]
  apply List.map_congr_left
  intro x _
  by_cases h : truthy x.color = true <;> simp [fillColor, h, withoutColor]

/-! ## Migration -/

/-- C1. Migration is idempotent: whatever the clock reads at the two calls, migrating an
already migrated document returns it unchanged, settings, metadata (with the `importedAt`
stamp and the `migratedFromOldFormat` flag of the first run) and every entry included. -/
theorem migrateData_idempotent (t1 t2 : String) (D : Doc) :
    migrateData t2 (migrateData t1 D) = migrateData t1 D := by
  simp only [migrateData, Option.isNone_some, migrateSettings_fixed, migrateMetadata,
    List.map_map]
  congr 1
  apply List.map_congr_left
  intro e _
  exact migrateEntry_fixed _ e

/-- C2. Migration completeness: whatever the input document (no settings, settings without
colours, colours missing or empty, theme present or not), the migrated document has settings
whose three colours are present and non-empty and whose theme is present. -/
theorem migrateData_settings_complete (now : String) (D : Doc) :
    ∃ s c i e v t, (migrateData now D).settings = some s ∧ s.colors = some c ∧
      c.income = some i ∧ i ≠ "" ∧ c.expense = some e ∧ e ≠ "" ∧
      c.invest = some v ∧ v ≠ "" ∧ s.theme = some t := by
  have key : ∀ a : Option String, truthy a = true → ∃ x, a = some x ∧ x ≠ "" := by
    intro a ha
    cases a with
    | none => simp [truthy] at ha
    | some x => exact ⟨x, rfl, by simpa [truthy] using ha⟩
  obtain ⟨settings, metadata, entries⟩ := D
  cases settings with
  | none =>
    exact ⟨migrateSettings none, defaultColors, "#04d361", "#e83f5b", "#8257e6", "dark",
      rfl, rfl, rfl, by decide, rfl, by decide, rfl, by decide, rfl⟩
  | some s =>
    obtain ⟨t, ht, _⟩ := key _ (truthy_theme s.theme)
    cases hc : s.colors with
    | none =>
      refine ⟨migrateSettings (some s), defaultColors, "#04d361", "#e83f5b", "#8257e6", t,
        rfl, ?_, rfl, by decide, rfl, by decide, rfl, by decide, ?_⟩
      · simp [migrateSettings, hc]
      · simpa [migrateSettings] using ht
    | some c =>
      obtain ⟨i, hi, hi'⟩ := key _ (truthy_jsOr_some c.income "#04d361" (by decide))
      obtain ⟨e, he, he'⟩ := key _ (truthy_jsOr_some c.expense "#e83f5b" (by decide))
      obtain ⟨v, hv, hv'⟩ := key _ (truthy_jsOr_some c.invest "#8257e6" (by decide))
      refine ⟨migrateSettings (some s),
        ⟨jsOr c.income defaultColors.income, jsOr c.expense defaultColors.expense,
          jsOr c.invest defaultColors.invest⟩, i, e, v, t,
        rfl, ?_, ?_, hi', ?_, he', ?_, hv', ?_⟩
      · simp only [migrateSettings, hc]
      · simpa [defaultColors] using hi
      · simpa [defaultColors] using he
      · simpa [defaultColors] using hv
      · simpa [migrateSettings] using ht

/-- C3. When the input document has settings, migration overwrites no present value: each of
`colors.income`, `colors.expense`, `colors.invest` and `theme` that is present and non-empty in
the input has the same value in the output, and each one that is missing (or empty) receives
its default `#04d361`, `#e83f5b`, `#8257e6`, `dark`. -/
theorem migrateData_keeps_present_settings (now : String) (D : Doc) (s : Settings)
    (h : D.settings = some s) :
    ∃ s' c', (migrateData now D).settings = some s' ∧ s'.colors = some c' ∧
      c'.income = (if truthy (s.colors.bind Colors.income) then s.colors.bind Colors.income
        else some "#04d361") ∧
      c'.expense = (if truthy (s.colors.bind Colors.expense) then s.colors.bind Colors.expense
        else some "#e83f5b") ∧
      c'.invest = (if truthy (s.colors.bind Colors.invest) then s.colors.bind Colors.invest
        else some "#8257e6") ∧
      s'.theme = (if truthy s.theme then s.theme else some "dark") := by
  cases hc : s.colors with
  | none =>
    refine ⟨migrateSettings (some s), defaultColors, by simp only [migrateData, h], ?_,
      ?_, ?_, ?_, ?_⟩
    · simp only [migrateSettings, hc]
    · simp [truthy, defaultColors]
    · simp [truthy, defaultColors]
    · simp [truthy, defaultColors]
    · rfl
  | some c =>
    refine ⟨migrateSettings (some s),
      ⟨jsOr c.income defaultColors.income, jsOr c.expense defaultColors.expense,
        jsOr c.invest defaultColors.invest⟩, by simp only [migrateData, h], ?_, ?_, ?_, ?_, ?_⟩
    · simp only [migrateSettings, hc]
    · simp [jsOr, defaultColors]
    · simp [jsOr, defaultColors]
    · simp [jsOr, defaultColors]
    · rfl

/-- Witness of C3 on a document whose settings are `sampleSettings`. -/
theorem migrateData_keeps_present_settings_witness :
    (⟨some sampleSettings, none, []⟩ : Doc).settings = some sampleSettings ∧
    ∃ s' c', (migrateData "2024-01-01T00:00:00.000Z" ⟨some sampleSettings, none, []⟩).settings
        = some s' ∧ s'.colors = some c' ∧
      c'.income = (if truthy (sampleSettings.colors.bind Colors.income)
        then sampleSettings.colors.bind Colors.income else some "#04d361") ∧
      c'.expense = (if truthy (sampleSettings.colors.bind Colors.expense)
        then sampleSettings.colors.bind Colors.expense else some "#e83f5b") ∧
      c'.invest = (if truthy (sampleSettings.colors.bind Colors.invest)
        then sampleSettings.colors.bind Colors.invest else some "#8257e6") ∧
      s'.theme = (if truthy sampleSettings.theme then sampleSettings.theme else some "dark") :=
  ⟨rfl, migrateData_keeps_present_settings _ _ sampleSettings rfl⟩

/-- C4. For every key of the document that matches the month-key pattern, the migrated entry
has all three collections present. A collection missing in the input is the empty list; a
collection present in the input is kept: it has the same number of items, in the same order and
equal in every field other than `color`, and it is the very same list when the document has
settings. -/
theorem migrateData_month_collections (now : String) (D : Doc) (key : String) (m : Month)
    (hkey : isMonthKey key = true) (hm : D.month key = some m) :
    ∃ incomes expenses investments,
      (migrateData now D).month key = some ⟨some incomes, some expenses, some investments⟩ ∧
      (m.incomes = none → incomes = []) ∧
      (m.expenses = none → expenses = []) ∧
      (m.investments = none → investments = []) ∧
      (∀ xs, m.incomes = some xs →
        incomes.length = xs.length ∧ incomes.map withoutColor = xs.map withoutColor ∧
        (D.settings ≠ none → incomes = xs)) ∧
      (∀ xs, m.expenses = some xs →
        expenses.length = xs.length ∧ expenses.map withoutColor = xs.map withoutColor ∧
        (D.settings ≠ none → expenses = xs)) ∧
      (∀ xs, m.investments = some xs →
        investments.length = xs.length ∧ investments.map withoutColor = xs.map withoutColor ∧
        (D.settings ≠ none → investments = xs)) := by
  rw [month_migrateData, hm]
  simp only [Option.map_some', hkey, if_true]
  obtain ⟨mi, me, mv⟩ := m
  cases hs : D.settings with
  | some s =>
    refine ⟨ensureList mi, ensureList me, ensureList mv, ?_, ?_, ?_, ?_, ?_, ?_, ?_⟩
    · simp [migrateMonth]
    all_goals
      intro h
      simp_all [ensureList]
  | none =>
    refine ⟨(ensureList mi).map (fillColor (some "#04d361")),
      (ensureList me).map (fillColor (some "#e83f5b")),
      (ensureList mv).map (fillColor (some "#8257e6")), ?_, ?_, ?_, ?_, ?_, ?_, ?_⟩
    · simp [migrateMonth, defaultColors]
    · intro h; simp_all [ensureList]
    · intro h; simp_all [ensureList]
    · intro h; simp_all [ensureList]
    · intro xs h
      have hx : mi = some xs := h
      subst hx
      exact ⟨by simp [ensureList], map_withoutColor_fillColor _ _, fun h' => absurd rfl h'⟩
    · intro xs h
      have hx : me = some xs := h
      subst hx
      exact ⟨by simp [ensureList], map_withoutColor_fillColor _ _, fun h' => absurd rfl h'⟩
    · intro xs h
      have hx : mv = some xs := h
      subst hx
      exact ⟨by simp [ensureList], map_withoutColor_fillColor _ _, fun h' => absurd rfl h'⟩

/-- Witness of C4 on the month `2024-01` of `legacyDoc`: the two incomes are kept, in order and
equal up to their colour, the missing expenses are the empty list and the empty investments
stay empty. -/
theorem migrateData_month_collections_witness :
    isMonthKey "2024-01" = true ∧
    ∃ incomes expenses investments,
      (migrateData "2024-01-01T00:00:00.000Z" legacyDoc).month "2024-01"
        = some ⟨some incomes, some expenses, some investments⟩ ∧
      incomes.map withoutColor =
        [ { id := 1, name := "Salário", value := 100, color := none,
            planned := none, date := none, type := none },
          { id := 2, name := "Bônus", value := 50, color := none,
            planned := none, date := none, type := none } ] ∧
      expenses = [] ∧ investments = [] := by
  refine ⟨by decide, ?_⟩
  obtain ⟨is, es, vs, h, _, he, _, hi, _, hv⟩ :=
    migrateData_month_collections "2024-01-01T00:00:00.000Z" legacyDoc "2024-01" _
      (by decide) rfl
  refine ⟨is, es, vs, h, ?_, he rfl, ?_⟩
  · rw [(hi _ rfl).2.1]
    decide
  · have hl := (hv _ rfl).1
    exact List.length_eq_zero.mp (by simpa using hl)

/-- C5. A document is legacy when it has no settings at the start of the call. In a legacy
document every item of every month collection that lacks a colour (absent or empty) gets the
default colour of its category (`#04d361`, `#e83f5b`, `#8257e6`) and every other item is left as
it is; in a document with settings the collections hold exactly the items of the input, so no
colour is added or changed. -/
theorem migrateData_color_backfill (now : String) (D : Doc) (key : String) (m : Month)
    (hkey : isMonthKey key = true) (hm : D.month key = some m) :
    ∃ m', (migrateData now D).month key = some m' ∧
      (D.settings = none →
        m'.incomes = some ((ensureList m.incomes).map
          (fun item => if truthy item.color then item else { item with color := some "#04d361" })) ∧
        m'.expenses = some ((ensureList m.expenses).map
          (fun item => if truthy item.color then item else { item with color := some "#e83f5b" })) ∧
        m'.investments = some ((ensureList m.investments).map
          (fun item => if truthy item.color then item else { item with color := some "#8257e6" }))) ∧
      (D.settings ≠ none →
        m'.incomes = some (ensureList m.incomes) ∧
        m'.expenses = some (ensureList m.expenses) ∧
        m'.investments = some (ensureList m.investments)) := by
  rw [month_migrateData, hm]
  simp only [Option.map_some', hkey, if_true]
  refine ⟨_, rfl, ?_, ?_⟩
  · intro hs
    simp only [hs, Option.isNone_none, migrateMonth, if_true, defaultColors]
    exact ⟨rfl, rfl, rfl⟩
  · intro hs
    have : D.settings.isNone = false := by
      cases h : D.settings with
      | none => exact absurd h hs
      | some _ => rfl
    simp [this, migrateMonth]

/-- Witness of C5 on the month `2024-01` of `legacyDoc`: the income without colour gets
`#04d361`, the income coloured `#123456` keeps its colour. -/
theorem migrateData_color_backfill_witness :
    isMonthKey "2024-01" = true ∧
    ∃ m', (migrateData "2024-01-01T00:00:00.000Z" legacyDoc).month "2024-01" = some m' ∧
      (m'.incomes.map (fun xs => xs.map Item.color))
        = some [some "#04d361", some "#123456"] := by
  refine ⟨by decide, ?_⟩
  obtain ⟨m', h, hold, _⟩ :=
    migrateData_color_backfill "2024-01-01T00:00:00.000Z" legacyDoc "2024-01" _
      (by decide) rfl
  refine ⟨m', h, ?_⟩
  rw [(hold rfl).1]
  simp [legacyDoc, ensureList, truthy]

/-! ## Aggregation -/

/-- The addition rounds as the language does: `2^53 + 1` is `2^53`. -/
theorem number_add_rounds :
    (9007199254740992 : Number) + 1 = 9007199254740992 := by
  decide

/-- The numbers written `0.1`, `0.2` and `0.3`: `0.1 + 0.2` is the number written
`0.30000000000000004`, and `(0.1 + 0.2) - 0.3` is `2^-54`, about `5.55e-17`. -/
theorem number_add_tenths :
    Number.fin false 3602879701896397 (-55) + Number.fin false 3602879701896397 (-54)
      = Number.fin false 1351079888211149 (-52) ∧
    (Number.fin false 3602879701896397 (-55) + Number.fin false 3602879701896397 (-54))
      - Number.fin false 5404319552844595 (-54) = Number.fin false 1 (-54) := by
  decide

theorem total_eq_foldl (xs : List Item) :
    total xs = (xs.map Item.value).foldl (· + ·) 0 := by
  simp [total, List.foldl_map]

theorem ensureMonthExists_of_month (st : State) (m : Month)
    (hm : st.data.month st.currentMonth = some m) : ensureMonthExists st = st := by
  simp [ensureMonthExists, hm]

theorem render_of_month (st : State) (incomes expenses investments : List Item)
    (s : Settings) (c : Colors)
    (hm : st.data.month st.currentMonth = some ⟨some incomes, some expenses, some investments⟩)
    (hs : st.data.settings = some s) (hc : s.colors = some c) :
    render st = .done
      { st with
        summary := some
          ⟨total incomes, total expenses, total investments,
            total incomes - (total expenses + total investments)⟩
        barChart := st.barChart.map (fun _ =>
          ⟨[total incomes, total expenses, total investments], [c.income, c.expense, c.invest]⟩)
        pieChart := st.pieChart.map (fun _ =>
          pieSeries c (total expenses) (total incomes - (total expenses + total investments))
            investments)
        stored := some st.data } := by
  unfold render
  simp [ensureMonthExists_of_month st _ hm, hm, hs, hc, chartColors]

theorem summary_after_render (st : State) (incomes expenses investments : List Item)
    (hm : st.data.month st.currentMonth = some ⟨some incomes, some expenses, some investments⟩) :
    (render st).state.summary = some
      ⟨total incomes, total expenses, total investments,
        total incomes - (total expenses + total investments)⟩ := by
  unfold render
  simp only [ensureMonthExists_of_month st _ hm, hm]
  cases hs : st.data.settings with
  | none => simp [Outcome.state]
  | some s =>
    cases hc : s.colors with
    | none => simp [Outcome.state, hc]
    | some c => simp [Outcome.state, hc, chartColors, hs]

/-- C6. For every month ledger, the summary that `render` computes has `totalIncome`,
`totalExpense` and `totalInvest` equal to the sums of `value` over the incomes, the expenses and
the investments, each added from 0 in list order with the addition of JavaScript numbers, and
`balance = totalIncome - (totalExpense + totalInvest)`, a number that may be negative. -/
theorem render_summary (st : State) (incomes expenses investments : List Item)
    (hm : st.data.month st.currentMonth = some ⟨some incomes, some expenses, some investments⟩) :
    (render st).state.summary = some
      { totalIncome := (incomes.map Item.value).foldl (· + ·) 0
        totalExpense := (expenses.map Item.value).foldl (· + ·) 0
        totalInvest := (investments.map Item.value).foldl (· + ·) 0
        balance := (incomes.map Item.value).foldl (· + ·) 0
          - ((expenses.map Item.value).foldl (· + ·) 0
            + (investments.map Item.value).foldl (· + ·) 0) } := by
  rw [summary_after_render st incomes expenses investments hm]
  simp only [total_eq_foldl]

/-- Witness of C6, the example of the specification: incomes 100 and 50, expense 30 and
investment 20 give the totals 150, 30, 20 and the balance 100. -/
theorem render_summary_witness :
    (sampleState exampleMonth).data.month (sampleState exampleMonth).currentMonth
        = some exampleMonth ∧
      (render (sampleState exampleMonth)).state.summary
        = some { totalIncome := 150, totalExpense := 30, totalInvest := 20, balance := 100 } :=
  ⟨by decide, (render_summary (sampleState exampleMonth) _ _ _ rfl).trans (by decide)⟩

/-- The totals round as the code's do: incomes `2^53` and 1 total `2^53`, the bucket `Ações` of
`2^53`, 1 and `-2^53` is 0 and gets no slice, and the balance and the free balance slice are 0. -/
theorem render_large_amounts :
    (render (sampleState largeMonth)).state.summary
      = some { totalIncome := 9007199254740992, totalExpense := 9007199254740992,
               totalInvest := 0, balance := 0 } ∧
    (render (sampleState largeMonth)).state.pieChart
      = some { labels := ["Despesas", "Saldo Livre"], data := [9007199254740992, 0],
               backgroundColor := [some "#e83f5b", some "#04d361"] } := by
  decide

/-- Amounts in cents: incomes written `0.1` and `0.2` against an expense written `0.3` leave the
balance `2^-54`, about `5.55e-17`, which is greater than 0 and is drawn as the free balance. -/
theorem render_tenths :
    (render (sampleState tenthsMonth)).state.summary.map Summary.balance
      = some (Number.fin false 1 (-54)) ∧
    (render (sampleState tenthsMonth)).state.pieChart.map PieData.data
      = some [Number.fin false 5404319552844595 (-54), Number.fin false 1 (-54)] := by
  decide

theorem addInvestment_eq (B : List (String × Number)) (item : Item) :
    addInvestment B item
      = B.map (fun kv =>
          (kv.1, if effectiveType item = kv.1 then kv.2 + item.value else kv.2)) := by
  unfold addInvestment
  by_cases h : (B.lookup (effectiveType item)).isSome = true
  · simp only [h, if_true]
    apply List.map_congr_left
    intro kv _
    by_cases hk : kv.1 = effectiveType item
    · simp [hk]
    · have hk' : ¬ effectiveType item = kv.1 := fun e => hk e.symm
      simp [hk, hk']
  · have hnone : B.lookup (effectiveType item) = none := by
      cases hl : B.lookup (effectiveType item) with
      | none => rfl
      | some v => simp [hl] at h
    rw [List.lookup_eq_none_iff] at hnone
    simp only [h]
    symm
    calc B.map (fun kv =>
            (kv.1, if effectiveType item = kv.1 then kv.2 + item.value else kv.2))
        = B.map id := by
          apply List.map_congr_left
          intro kv hkv
          have hne : ¬ effectiveType item = kv.1 := by simpa using hnone kv hkv
          simp [hne]
      _ = B := List.map_id B

theorem foldl_addInvestment (investments : List Item) (B : List (String × Number)) :
    investments.foldl addInvestment B
      = B.map (fun kv => (kv.1,
          ((investments.filter (fun item => effectiveType item = kv.1)).map
            Item.value).foldl (· + ·) kv.2)) := by
  induction investments generalizing B with
  | nil => simp
  | cons x rest ih =>
    rw [List.foldl_cons, ih, addInvestment_eq, List.map_map]
    apply List.map_congr_left
    intro kv _
    by_cases hk : effectiveType x = kv.1
    · simp [hk, List.filter_cons]
    · simp [hk, List.filter_cons]

theorem investmentBreakdown_eq (investments : List Item) :
    investmentBreakdown investments =
      [("Reserva",
          ((investments.filter (fun item => effectiveType item = "Reserva")).map
            Item.value).foldl (· + ·) 0),
        ("Ações",
          ((investments.filter (fun item => effectiveType item = "Ações")).map
            Item.value).foldl (· + ·) 0),
        ("FIIs",
          ((investments.filter (fun item => effectiveType item = "FIIs")).map
            Item.value).foldl (· + ·) 0),
        ("Renda Fixa",
          ((investments.filter (fun item => effectiveType item = "Renda Fixa")).map
            Item.value).foldl (· + ·) 0)] := by
  simp [investmentBreakdown, foldl_addInvestment, investmentTypesInit]

theorem effectiveType_eq_reserva (item : Item) :
    effectiveType item = "Reserva"
      ↔ item.type = some "Reserva" ∨ item.type = some "" ∨ item.type = none := by
  unfold effectiveType
  cases h : item.type with
  | none => simp
  | some t =>
    by_cases ht : t = ""
    · simp [ht]
    · simp [ht]

theorem effectiveType_eq_other (item : Item) (label : String) (hl : label ≠ "Reserva")
    (hl' : label ≠ "") : effectiveType item = label ↔ item.type = some label := by
  unfold effectiveType
  cases h : item.type with
  | none => simp [hl.symm]
  | some t =>
    by_cases ht : t = ""
    · subst ht
      simp [hl.symm, hl'.symm]
    · simp [ht]

theorem foldl_addTypeSlice (c : Colors) (start : PieData) (r a f x : Number) :
    [("Reserva", r), ("Ações", a), ("FIIs", f), ("Renda Fixa", x)].foldl (addTypeSlice c) start =
      { labels := start.labels ++ (if r.gtZero then ["Reserva"] else [])
          ++ (if a.gtZero then ["Ações"] else []) ++ (if f.gtZero then ["FIIs"] else [])
          ++ (if x.gtZero then ["Renda Fixa"] else [])
        data := start.data ++ (if r.gtZero then [r] else []) ++ (if a.gtZero then [a] else [])
          ++ (if f.gtZero then [f] else []) ++ (if x.gtZero then [x] else [])
        backgroundColor := start.backgroundColor
          ++ (if r.gtZero then [some "#8257e6"] else [])
          ++ (if a.gtZero then [some "#6b4fc9"] else [])
          ++ (if f.gtZero then [some "#9c6be6"] else [])
          ++ (if x.gtZero then [some "#b39ddb"] else []) } := by
  have h1 : jsOr (investColors.lookup "Reserva") c.invest = some "#8257e6" := by
    simp [investColors, List.lookup, jsOr, truthy]
  have h2 : jsOr (investColors.lookup "Ações") c.invest = some "#6b4fc9" := by
    simp [investColors, List.lookup, jsOr, truthy]
  have h3 : jsOr (investColors.lookup "FIIs") c.invest = some "#9c6be6" := by
    simp [investColors, List.lookup, jsOr, truthy]
  have h4 : jsOr (investColors.lookup "Renda Fixa") c.invest = some "#b39ddb" := by
    simp [investColors, List.lookup, jsOr, truthy]
  simp only [List.foldl_cons, List.foldl_nil, addTypeSlice, h1, h2, h3, h4]
  cases r.gtZero <;> cases a.gtZero <;> cases f.gtZero <;> cases x.gtZero <;>
    simp [pushSlice]

theorem pieSeries_eq (c : Colors) (totalExp balance : Number) (investments : List Item) :
    ∃ r a f x,
      investmentBreakdown investments
        = [("Reserva", r), ("Ações", a), ("FIIs", f), ("Renda Fixa", x)] ∧
      pieSeries c totalExp balance investments =
        { labels := ["Despesas"] ++ (if r.gtZero then ["Reserva"] else [])
            ++ (if a.gtZero then ["Ações"] else []) ++ (if f.gtZero then ["FIIs"] else [])
            ++ (if x.gtZero then ["Renda Fixa"] else []) ++ ["Saldo Livre"]
          data := [totalExp] ++ (if r.gtZero then [r] else []) ++ (if a.gtZero then [a] else [])
            ++ (if f.gtZero then [f] else []) ++ (if x.gtZero then [x] else [])
            ++ [if balance.gtZero then balance else 0]
          backgroundColor := [c.expense]
            ++ (if r.gtZero then [some "#8257e6"] else [])
            ++ (if a.gtZero then [some "#6b4fc9"] else [])
            ++ (if f.gtZero then [some "#9c6be6"] else [])
            ++ (if x.gtZero then [some "#b39ddb"] else []) ++ [c.income] } := by
  refine ⟨_, _, _, _, investmentBreakdown_eq investments, ?_⟩
  simp only [pieSeries, investmentBreakdown_eq, foldl_addTypeSlice, pushSlice]

theorem pieSeries_last (c : Colors) (totalExp balance : Number) (investments : List Item) :
    (pieSeries c totalExp balance investments).labels.getLast? = some "Saldo Livre" ∧
    (pieSeries c totalExp balance investments).data.getLast?
      = some (if balance.gtZero then balance else 0) := by
  simp only [pieSeries, pushSlice, List.getLast?_concat, and_self]

/-- C7, counterexample. An investment whose type is the empty string, which is none of the
known labels, adds its value 5 to the bucket `Reserva`, while no investment has the type
`Reserva` exactly, so that the sum of `value` over those is 0. -/
theorem investmentBreakdown_exact_type_counterexample :
    (sampleItem 1 5 (some "")).type ≠ some "Reserva" ∧
    (investmentBreakdown [sampleItem 1 5 (some "")]).lookup "Reserva" = some 5 ∧
    (([sampleItem 1 5 (some "")].filter (fun item => item.type = some "Reserva")).map
      Item.value).foldl (· + ·) 0 = (0 : Number) := by
  decide

/-- C7, amended. For every list of investments the bucket `Reserva` is the sum of `value` over
the investments whose type is `Reserva`, empty or absent, and each of the buckets `Ações`,
`FIIs`, `Renda Fixa` is the sum of `value` over the investments whose type is exactly that
label; so an investment with a non-empty type that is none of the four labels adds nothing to
any bucket. The total of the investments is the sum of `value` over all of them, whatever
their type. Each sum is added from 0 in list order with the addition of JavaScript numbers. -/
theorem investmentBreakdown_buckets (investments : List Item) :
    investmentBreakdown investments =
      [("Reserva", ((investments.filter (fun item =>
          item.type = some "Reserva" ∨ item.type = some "" ∨ item.type = none)).map
            Item.value).foldl (· + ·) 0),
        ("Ações", ((investments.filter (fun item => item.type = some "Ações")).map
          Item.value).foldl (· + ·) 0),
        ("FIIs", ((investments.filter (fun item => item.type = some "FIIs")).map
          Item.value).foldl (· + ·) 0),
        ("Renda Fixa", ((investments.filter (fun item => item.type = some "Renda Fixa")).map
          Item.value).foldl (· + ·) 0)] ∧
    total investments = (investments.map Item.value).foldl (· + ·) 0 := by
  refine ⟨?_, total_eq_foldl investments⟩
  rw [investmentBreakdown_eq]
  have e0 : investments.filter (fun item => effectiveType item = "Reserva")
      = investments.filter (fun item =>
          item.type = some "Reserva" ∨ item.type = some "" ∨ item.type = none) := by
    apply List.filter_congr
    intro item _
    simp only [effectiveType_eq_reserva]
  have e1 : ∀ label : String, label ≠ "Reserva" → label ≠ "" →
      investments.filter (fun item => effectiveType item = label)
        = investments.filter (fun item => item.type = some label) := by
    intro label h h'
    apply List.filter_congr
    intro item _
    simp only [effectiveType_eq_other item label h h']
  rw [e0, e1 "Ações" (by decide) (by decide), e1 "FIIs" (by decide) (by decide),
    e1 "Renda Fixa" (by decide) (by decide)]

/-- C8. For every month ledger, the last slice of the pie series that `render` builds is the
free balance `Saldo Livre` with the value max(balance, 0), where
`balance = totalIncome - (totalExpense + totalInvest)`: the balance when it is greater than 0,
and 0 otherwise, so 0 whenever the balance is negative; the balance in the summary is the
unclamped one. -/
theorem render_free_balance_slice (st : State) (incomes expenses investments : List Item)
    (s : Settings) (c : Colors) (chart : PieData)
    (hm : st.data.month st.currentMonth = some ⟨some incomes, some expenses, some investments⟩)
    (hs : st.data.settings = some s) (hc : s.colors = some c)
    (hp : st.pieChart = some chart) :
    ∃ st' pie, render st = .done st' ∧ st'.pieChart = some pie ∧
      pie.labels.getLast? = some "Saldo Livre" ∧
      pie.data.getLast?
        = some (if (total incomes - (total expenses + total investments)).gtZero
            then total incomes - (total expenses + total investments) else 0) ∧
      st'.summary.map Summary.balance
        = some (total incomes - (total expenses + total investments)) := by
  obtain ⟨hl, hd⟩ := pieSeries_last c (total expenses)
    (total incomes - (total expenses + total investments)) investments
  refine ⟨_, pieSeries c (total expenses) (total incomes - (total expenses + total investments))
    investments, render_of_month st incomes expenses investments s c hm hs hc, ?_, hl, hd, ?_⟩
  · simp only [hp, Option.map_some']
  · rfl

/-- Witness of C8, the example of the specification: income 10 and expense 100 give a free
balance slice of 0 while the summary reports the balance -90. -/
theorem render_free_balance_slice_witness :
    (sampleState deficitMonth).pieChart.isSome = true ∧
    ∃ st' pie, render (sampleState deficitMonth) = .done st' ∧ st'.pieChart = some pie ∧
      pie.labels.getLast? = some "Saldo Livre" ∧ pie.data.getLast? = some 0 ∧
      st'.summary.map Summary.balance = some (-90) := by
  refine ⟨rfl, ?_⟩
  obtain ⟨st', pie, h1, h2, h3, h4, h5⟩ :=
    render_free_balance_slice (sampleState deficitMonth) _ _ _ _ _ _ rfl rfl rfl rfl
  exact ⟨st', pie, h1, h2, h3, h4.trans (by decide), h5.trans (by decide)⟩

/-- C9. For every month ledger and settings, the pie series that `render` builds starts with
the slice (`Despesas`, totalExpense, expense colour), continues, in the order `Reserva`,
`Ações`, `FIIs`, `Renda Fixa`, with one slice for each bucket of the investment breakdown whose
sum is greater than 0 and none for the others, each in its shade `#8257e6`, `#6b4fc9`,
`#9c6be6`, `#b39ddb`, and ends with the slice (`Saldo Livre`, max(balance, 0), income colour).
The lists of labels, data and colours have the same length. -/
theorem render_pie_series (st : State) (incomes expenses investments : List Item)
    (s : Settings) (c : Colors) (chart : PieData)
    (hm : st.data.month st.currentMonth = some ⟨some incomes, some expenses, some investments⟩)
    (hs : st.data.settings = some s) (hc : s.colors = some c)
    (hp : st.pieChart = some chart) :
    ∃ st' pie r a f x, render st = .done st' ∧ st'.pieChart = some pie ∧
      investmentBreakdown investments
        = [("Reserva", r), ("Ações", a), ("FIIs", f), ("Renda Fixa", x)] ∧
      pie.labels = ["Despesas"] ++ (if r.gtZero then ["Reserva"] else [])
        ++ (if a.gtZero then ["Ações"] else []) ++ (if f.gtZero then ["FIIs"] else [])
        ++ (if x.gtZero then ["Renda Fixa"] else []) ++ ["Saldo Livre"] ∧
      pie.data = [total expenses] ++ (if r.gtZero then [r] else [])
        ++ (if a.gtZero then [a] else []) ++ (if f.gtZero then [f] else [])
        ++ (if x.gtZero then [x] else [])
        ++ [if (total incomes - (total expenses + total investments)).gtZero
            then total incomes - (total expenses + total investments) else 0] ∧
      pie.backgroundColor = [c.expense]
        ++ (if r.gtZero then [some "#8257e6"] else [])
        ++ (if a.gtZero then [some "#6b4fc9"] else [])
        ++ (if f.gtZero then [some "#9c6be6"] else [])
        ++ (if x.gtZero then [some "#b39ddb"] else [])
        ++ [c.income] ∧
      pie.labels.length = pie.data.length ∧ pie.data.length = pie.backgroundColor.length := by
  obtain ⟨r, a, f, x, hb, hpie⟩ := pieSeries_eq c (total expenses)
    (total incomes - (total expenses + total investments)) investments
  refine ⟨_, pieSeries c (total expenses) (total incomes - (total expenses + total investments))
    investments, r, a, f, x, render_of_month st incomes expenses investments s c hm hs hc, ?_,
    hb, ?_, ?_, ?_, ?_, ?_⟩
  · simp only [hp, Option.map_some']
  · rw [hpie]
  · rw [hpie]
  · rw [hpie]
  · rw [hpie]
    cases r.gtZero <;> cases a.gtZero <;> cases f.gtZero <;> cases x.gtZero <;> simp
  · rw [hpie]
    cases r.gtZero <;> cases a.gtZero <;> cases f.gtZero <;> cases x.gtZero <;> simp

/-- Witness of C9 on the aggregation example: the single investment of 20 in `Ações` gives
the three slices `Despesas` 30, `Ações` 20 and `Saldo Livre` 100. -/
theorem render_pie_series_witness :
    (sampleState exampleMonth).pieChart.isSome = true ∧
    ∃ st' pie, render (sampleState exampleMonth) = .done st' ∧ st'.pieChart = some pie ∧
      pie.labels = ["Despesas", "Ações", "Saldo Livre"] ∧ pie.data = [30, 20, 100] ∧
      pie.backgroundColor = [some "#e83f5b", some "#6b4fc9", some "#04d361"] := by
  refine ⟨rfl, ?_⟩
  obtain ⟨st', pie, r, a, f, x, h1, h2, hb, hl, hd, hc, _, _⟩ :=
    render_pie_series (sampleState exampleMonth) _ _ _ _ _ _ rfl rfl rfl rfl
  have hb' : investmentBreakdown [sampleItem 4 20 (some "Ações")]
      = [("Reserva", 0), ("Ações", 20), ("FIIs", 0), ("Renda Fixa", 0)] := by decide
  rw [hb'] at hb
  simp only [List.cons.injEq, Prod.mk.injEq, true_and, and_true] at hb
  obtain ⟨hr, ha, hf, hx⟩ := hb
  subst hr ha hf hx
  refine ⟨st', pie, h1, h2, ?_, ?_, ?_⟩
  · rw [hl]; decide
  · rw [hd]; decide
  · rw [hc]; decide

/-! ## Adding a transaction -/

theorem itemsOf_ensureMonthExists (st : State) (key kind : String) :
    itemsOf (ensureMonthExists st).data key kind = itemsOf st.data key kind := by
  unfold ensureMonthExists
  cases hm : st.data.month st.currentMonth with
  | some m => rfl
  | none =>
    simp only [itemsOf, Doc.month, List.lookup_append]
    cases hk : st.data.entries.lookup key with
    | some v => simp
    | none =>
      by_cases he : key = st.currentMonth
      · subst he
        simp only [Option.none_or, List.lookup_cons_self, emptyMonth, ensureList]
        split_ifs <;> rfl
      · have hne : (key == st.currentMonth) = false := by simpa using he
        simp [List.lookup_cons, hne]

theorem month_ensureMonthExists (st : State) :
    ∃ m, (ensureMonthExists st).data.month (ensureMonthExists st).currentMonth = some m := by
  unfold ensureMonthExists
  cases hm : st.data.month st.currentMonth with
  | some m => exact ⟨m, by simp [hm]⟩
  | none =>
    refine ⟨emptyMonth, ?_⟩
    have hm' : st.data.entries.lookup st.currentMonth = none := hm
    simp [Doc.month, List.lookup_append, hm']

theorem settings_ensureMonthExists (st : State) :
    (ensureMonthExists st).data.settings = st.data.settings := by
  unfold ensureMonthExists
  cases hm : st.data.month st.currentMonth <;> rfl

theorem currentMonth_ensureMonthExists (st : State) :
    (ensureMonthExists st).currentMonth = st.currentMonth := by
  unfold ensureMonthExists
  cases st.data.month st.currentMonth <;> rfl

theorem month_ensureMonthExists_of_ne (st : State) (key : String) (h : key ≠ st.currentMonth) :
    (ensureMonthExists st).data.month key = st.data.month key := by
  unfold ensureMonthExists
  cases hm : st.data.month st.currentMonth with
  | some m => rfl
  | none =>
    have hne : (key == st.currentMonth) = false := by simpa using h
    simp [Doc.month, List.lookup_append, List.lookup_cons, hne]

theorem month_ensureMonthExists_of_none (st : State) (key : String)
    (h : st.data.month key = none) :
    (ensureMonthExists st).data.month key = none ∨
      (key = st.currentMonth ∧ (ensureMonthExists st).data.month key = some emptyMonth) := by
  by_cases hk : key = st.currentMonth
  · subst hk
    right
    refine ⟨rfl, ?_⟩
    have hl : st.data.entries.lookup st.currentMonth = none := h
    simp [ensureMonthExists, h, Doc.month, List.lookup_append, hl]
  · left
    rw [month_ensureMonthExists_of_ne st key hk, h]

/-- C10. Add-transaction validation. On a migrated document (settings with colours), for every
active month given by a month key, calling `addTransaction` for `incomes`, `expenses` or
`investments` with an empty name or a value that does not parse to a number (`NaN`) ends in the
alert `Dados inválidos` (followed, for an expense, by the sentence
`Preencha Nome e Valor Real.`); the state it leaves is the one after `ensureMonthExists`, in
which every collection of every month, the active one included, holds exactly the items it
held before, so no item is created: a month that was absent is still absent, unless it is
the active month, now present under its month key with three empty collections. -/
theorem addTransaction_invalid (now : Int) (form : Form) (type : String) (st : State)
    (s : Settings) (c : Colors)
    (htype : type = "incomes" ∨ type = "expenses" ∨ type = "investments")
    (hkey : isMonthKey st.currentMonth = true)
    (hs : st.data.settings = some s) (hc : s.colors = some c)
    (hbad : form.name = "" ∨ form.value.isNaN = true) :
    addTransaction now form type st
      = .alerted
          (if type = "expenses" then "Dados inválidos. Preencha Nome e Valor Real."
            else "Dados inválidos")
          (ensureMonthExists st) ∧
    (∀ key kind,
      itemsOf (addTransaction now form type st).state.data key kind = itemsOf st.data key kind) ∧
    (∀ key, st.data.month key = none →
      (ensureMonthExists st).data.month key = none ∨
        (isMonthKey key = true ∧ (ensureMonthExists st).data.month key = some emptyMonth)) := by
  have hmain : addTransaction now form type st
      = .alerted
          (if type = "expenses" then "Dados inválidos. Preencha Nome e Valor Real."
            else "Dados inválidos")
          (ensureMonthExists st) := by
    obtain ⟨m, hm⟩ := month_ensureMonthExists st
    have hcol : (ensureMonthExists st).data.settings.bind (fun s => s.colors) = some c := by
      simp [settings_ensureMonthExists, hs, hc]
    have hpick : ∀ category, ∃ col,
        pickColor form (ensureMonthExists st).data category = some col := by
      intro category
      unfold pickColor
      cases form.itemColor with
      | some v => exact ⟨some v, rfl⟩
      | none => exact ⟨category c, by simp [hcol]⟩
    unfold addTransaction
    simp only [hm]
    rcases htype with h | h | h
    · subst h
      obtain ⟨col, hcol'⟩ := hpick Colors.income
      simp only [if_true, hcol']
      simp only [if_pos hbad]
      simp
    · subst h
      obtain ⟨col, hcol'⟩ := hpick Colors.expense
      have hne : ¬ ("expenses" = "incomes") := by decide
      simp only [hne, if_false, if_true, hcol']
      simp only [if_pos hbad]
    · subst h
      obtain ⟨col, hcol'⟩ := hpick Colors.invest
      have hne : ¬ ("investments" = "incomes") := by decide
      have hne' : ¬ ("investments" = "expenses") := by decide
      simp only [hne, hne', if_false, if_true, hcol']
      simp only [if_pos hbad]
  refine ⟨hmain, ?_, ?_⟩
  · intro key kind
    rw [hmain]
    exact itemsOf_ensureMonthExists st key kind
  · intro key hnone
    rcases month_ensureMonthExists_of_none st key hnone with h | ⟨h1, h2⟩
    · exact Or.inl h
    · exact Or.inr ⟨by rw [h1]; exact hkey, h2⟩

/-- Witness of C10: adding an income with an empty name in the sample state ends in the alert
and leaves the state as it was. -/
theorem addTransaction_invalid_witness :
    isMonthKey (sampleState exampleMonth).currentMonth = true ∧
    (emptyNameForm.name = "" ∨ emptyNameForm.value.isNaN = true) ∧
    addTransaction 1700000000000 emptyNameForm "incomes" (sampleState exampleMonth)
      = .alerted "Dados inválidos" (sampleState exampleMonth) :=
  ⟨by decide, Or.inl rfl,
    (addTransaction_invalid 1700000000000 emptyNameForm "incomes" (sampleState exampleMonth)
      _ _ (Or.inl rfl) (by decide) rfl rfl (Or.inl rfl)).1.trans (by decide)⟩

theorem lookup_setEntry (es : List (String × Month)) (k key : String) (m : Month) :
    (setEntry es k m).lookup key = if key = k then some m else es.lookup key := by
  induction es with
  | nil =>
    by_cases h : key = k
    · subst h
      simp [setEntry]
    · have hne : (key == k) = false := by simpa using h
      simp [setEntry, List.lookup_cons, h, hne]
  | cons e rest ih =>
    obtain ⟨k', v⟩ := e
    by_cases hk : k' = k
    · subst hk
      by_cases h : key = k'
      · subst h
        simp [setEntry]
      · have hne : (key == k') = false := by simpa using h
        simp [setEntry, List.lookup_cons, h, hne]
    · by_cases h' : key = k'
      · subst h'
        have hkk : ¬ key = k := hk
        simp [setEntry, hk, hkk]
      · have hne : (key == k') = false := by simpa using h'
        simp [setEntry, hk, List.lookup_cons, hne, ih]

theorem setEntry_of_lookup (es : List (String × Month)) (k : String) (m : Month)
    (h : es.lookup k = some m) : setEntry es k m = es := by
  induction es with
  | nil => simp at h
  | cons e rest ih =>
    obtain ⟨k', v⟩ := e
    by_cases hk : k' = k
    · subst hk
      have hv : v = m := by simpa using h
      simp [setEntry, hv]
    · have hne : (k == k') = false := by
        simpa using fun e : k = k' => hk e.symm
      rw [List.lookup_cons, hne] at h
      simp [setEntry, hk, ih h]

theorem month_withMonth (st : State) (m : Month) (key : String) :
    (withMonth st m).data.month key
      = if key = st.currentMonth then some m else st.data.month key := by
  simp [withMonth, Doc.month, lookup_setEntry]

theorem render_done_data (st : State) (incomes expenses investments : List Item)
    (s : Settings) (c : Colors)
    (hm : st.data.month st.currentMonth = some ⟨some incomes, some expenses, some investments⟩)
    (hs : st.data.settings = some s) (hc : s.colors = some c) :
    ∃ st', render st = .done st' ∧ st'.data = st.data ∧ st'.currentMonth = st.currentMonth :=
  ⟨_, render_of_month st incomes expenses investments s c hm hs hc, rfl, rfl⟩

theorem ensured_collections (st : State)
    (hm : ∀ m, st.data.month st.currentMonth = some m →
      m.incomes.isSome = true ∧ m.expenses.isSome = true ∧ m.investments.isSome = true) :
    (ensureMonthExists st).data.month st.currentMonth
      = some ⟨some (itemsOf st.data st.currentMonth "incomes"),
          some (itemsOf st.data st.currentMonth "expenses"),
          some (itemsOf st.data st.currentMonth "investments")⟩ := by
  cases hmo : st.data.month st.currentMonth with
  | none =>
    have hl : st.data.entries.lookup st.currentMonth = none := hmo
    simp [ensureMonthExists, hmo, itemsOf, Doc.month, List.lookup_append, hl, emptyMonth]
  | some m =>
    obtain ⟨hi, he, hv⟩ := hm m hmo
    obtain ⟨mi, me, mv⟩ := m
    cases mi with
    | none => simp at hi
    | some a =>
      cases me with
      | none => simp at he
      | some b =>
        cases mv with
        | none => simp at hv
        | some d => simp [ensureMonthExists, hmo, itemsOf, ensureList]

theorem finishAdd_withMonth (form : Form) (st : State) (a b d : List Item)
    (s : Settings) (c : Colors)
    (hs : st.data.settings = some s) (hc : s.colors = some c) :
    ∃ st', finishAdd form (withMonth st ⟨some a, some b, some d⟩) = .done st' ∧
      st'.data = (withMonth st ⟨some a, some b, some d⟩).data := by
  have hres : resetPicker form (withMonth st ⟨some a, some b, some d⟩).data = true := by
    unfold resetPicker
    cases form.itemColor with
    | none => rfl
    | some v => simp [withMonth, hs, hc]
  obtain ⟨st', h1, h2, _⟩ := render_done_data (withMonth st ⟨some a, some b, some d⟩) a b d s c
    (by rw [month_withMonth]; simp [withMonth]) (by simpa [withMonth] using hs) hc
  exact ⟨st', by simp [finishAdd, hres, h1], h2⟩

theorem itemsOf_withMonth (st : State) (m : Month) (key kind : String) :
    itemsOf (withMonth st m).data key kind
      = if key = st.currentMonth then
          (if kind = "incomes" then ensureList m.incomes
            else if kind = "expenses" then ensureList m.expenses
            else if kind = "investments" then ensureList m.investments
            else [])
        else itemsOf st.data key kind := by
  unfold itemsOf
  rw [month_withMonth]
  by_cases h : key = st.currentMonth <;> simp [h]

/-- C11. On a migrated document (settings with colours, an existing active month holding its
three collections), for an active month given by a month key, each of the three kinds and
every input with a non-empty name and a numeric value (not `NaN`), `addTransaction` runs to its
end and appends exactly one new item at the end of the active month's collection of that
kind; the month is created with three empty collections first when it was absent. The new
item has the clock value as `id` and the given name and value, and for an expense `planned` is
the given number, or 0 when it is absent, not numeric or zero. The items already there keep
their order, the other two collections of the month and every other month are unchanged. -/
theorem addTransaction_appends (now : Int) (form : Form) (type : String) (st : State)
    (s : Settings) (c : Colors)
    (htype : type = "incomes" ∨ type = "expenses" ∨ type = "investments")
    (hkey : isMonthKey st.currentMonth = true)
    (hs : st.data.settings = some s) (hc : s.colors = some c)
    (hm : ∀ m, st.data.month st.currentMonth = some m →
      m.incomes.isSome = true ∧ m.expenses.isSome = true ∧ m.investments.isSome = true)
    (hname : form.name ≠ "") (hval : form.value.isNaN = false) :
    ∃ st' newItem, addTransaction now form type st = .done st' ∧
      newItem.id = now ∧ newItem.name = form.name ∧ newItem.value = form.value ∧
      (type = "expenses" →
        newItem.planned = some (if form.planned.truthy then form.planned else 0)) ∧
      itemsOf st'.data st.currentMonth type
        = itemsOf st.data st.currentMonth type ++ [newItem] ∧
      (∀ kind, kind ≠ type →
        itemsOf st'.data st.currentMonth kind = itemsOf st.data st.currentMonth kind) ∧
      (∀ key, key ≠ st.currentMonth → st'.data.month key = st.data.month key) ∧
      (∃ incomes expenses investments,
        st'.data.month st.currentMonth = some ⟨some incomes, some expenses, some investments⟩) ∧
      (∀ key, st.data.month key = none →
        st'.data.month key = none ∨ (key = st.currentMonth ∧ isMonthKey key = true)) := by
  have hcm := currentMonth_ensureMonthExists st
  have hmonth := ensured_collections st hm
  have hs1 : (ensureMonthExists st).data.settings = some s := by
    rw [settings_ensureMonthExists, hs]
  have hcol : (ensureMonthExists st).data.settings.bind (fun s => s.colors) = some c := by
    simp [hs1, hc]
  have hpick : ∀ category, ∃ col,
      pickColor form (ensureMonthExists st).data category = some col := by
    intro category
    unfold pickColor
    cases form.itemColor with
    | some v => exact ⟨some v, rfl⟩
    | none => exact ⟨category c, by simp [hcol]⟩
  have hok : ¬ (form.name = "" ∨ form.value.isNaN = true) := by
    simp [hname, hval]
  have hother : ∀ key, key ≠ st.currentMonth → ∀ m : Month,
      (withMonth (ensureMonthExists st) m).data.month key = st.data.month key := by
    intro key hkey m
    rw [month_withMonth, hcm, if_neg hkey, month_ensureMonthExists_of_ne st key hkey]
  rcases htype with h | h | h
  · subst h
    obtain ⟨col, hcol'⟩ := hpick Colors.income
    obtain ⟨st', hfin, hdata⟩ := finishAdd_withMonth form (ensureMonthExists st)
      (itemsOf st.data st.currentMonth "incomes" ++
        [{ id := now, name := form.name, value := form.value, color := col,
           planned := none, date := none, type := none }])
      (itemsOf st.data st.currentMonth "expenses")
      (itemsOf st.data st.currentMonth "investments") s c hs1 hc
    refine ⟨st',
      ({ id := now, name := form.name, value := form.value, color := col,
         planned := none, date := none, type := none } : Item),
      ?_, rfl, rfl, rfl, ?_, ?_, ?_, ?_, ?_, ?_⟩
    · unfold addTransaction
      simp only [hcm, hmonth, hcol', if_neg hok, if_true, if_false]
      exact hfin
    · intro h; exact absurd h (by decide)
    · rw [hdata, itemsOf_withMonth, hcm]
      simp [ensureList]
    · intro kind hk
      rw [hdata, itemsOf_withMonth, hcm]
      simp only [if_true, hk, if_false, ensureList]
      unfold itemsOf
      cases hmo : st.data.month st.currentMonth with
      | none => simp
      | some m => simp [hk]
    · intro key hkey
      rw [hdata]
      exact hother key hkey _
    · rw [hdata, month_withMonth, hcm, if_pos rfl]
      exact ⟨_, _, _, rfl⟩
    · intro key hnone
      by_cases hk : key = st.currentMonth
      · exact Or.inr ⟨hk, by rw [hk]; exact hkey⟩
      · left
        rw [hdata, hother key hk, hnone]
  · subst h
    obtain ⟨col, hcol'⟩ := hpick Colors.expense
    obtain ⟨st', hfin, hdata⟩ := finishAdd_withMonth form (ensureMonthExists st)
      (itemsOf st.data st.currentMonth "incomes")
      (itemsOf st.data st.currentMonth "expenses" ++
        [{ id := now, name := form.name, value := form.value, color := col,
           planned := some (if form.planned.truthy then form.planned else 0),
           date := some form.date, type := none }])
      (itemsOf st.data st.currentMonth "investments") s c hs1 hc
    have hne : ¬ ("expenses" = "incomes") := by decide
    refine ⟨st',
      ({ id := now, name := form.name, value := form.value, color := col,
         planned := some (if form.planned.truthy then form.planned else 0),
         date := some form.date, type := none } : Item),
      ?_, rfl, rfl, rfl, ?_, ?_, ?_, ?_, ?_, ?_⟩
    · unfold addTransaction
      simp only [hcm, hmonth, hcol', if_neg hok, hne, if_true, if_false]
      exact hfin
    · intro _; rfl
    · rw [hdata, itemsOf_withMonth, hcm]
      simp [ensureList]
    · intro kind hk
      rw [hdata, itemsOf_withMonth, hcm]
      simp only [if_true, hk, if_false, ensureList]
      unfold itemsOf
      cases hmo : st.data.month st.currentMonth with
      | none => simp
      | some m => simp [hk]
    · intro key hkey
      rw [hdata]
      exact hother key hkey _
    · rw [hdata, month_withMonth, hcm, if_pos rfl]
      exact ⟨_, _, _, rfl⟩
    · intro key hnone
      by_cases hk : key = st.currentMonth
      · exact Or.inr ⟨hk, by rw [hk]; exact hkey⟩
      · left
        rw [hdata, hother key hk, hnone]
  · subst h
    obtain ⟨col, hcol'⟩ := hpick Colors.invest
    obtain ⟨st', hfin, hdata⟩ := finishAdd_withMonth form (ensureMonthExists st)
      (itemsOf st.data st.currentMonth "incomes")
      (itemsOf st.data st.currentMonth "expenses")
      (itemsOf st.data st.currentMonth "investments" ++
        [{ id := now, name := form.name, value := form.value, color := col,
           planned := none, date := some form.date, type := some form.typeInv }]) s c hs1 hc
    have hne : ¬ ("investments" = "incomes") := by decide
    have hne' : ¬ ("investments" = "expenses") := by decide
    refine ⟨st',
      ({ id := now, name := form.name, value := form.value, color := col,
         planned := none, date := some form.date, type := some form.typeInv } : Item),
      ?_, rfl, rfl, rfl, ?_, ?_, ?_, ?_, ?_, ?_⟩
    · unfold addTransaction
      simp only [hcm, hmonth, hcol', if_neg hok, hne, hne', if_true, if_false]
      exact hfin
    · intro h; exact absurd h (by decide)
    · rw [hdata, itemsOf_withMonth, hcm]
      simp [ensureList]
    · intro kind hk
      rw [hdata, itemsOf_withMonth, hcm]
      simp only [if_true, hk, if_false, ensureList]
      unfold itemsOf
      cases hmo : st.data.month st.currentMonth with
      | none => simp
      | some m => simp [hk]
    · intro key hkey
      rw [hdata]
      exact hother key hkey _
    · rw [hdata, month_withMonth, hcm, if_pos rfl]
      exact ⟨_, _, _, rfl⟩
    · intro key hnone
      by_cases hk : key = st.currentMonth
      · exact Or.inr ⟨hk, by rw [hk]; exact hkey⟩
      · left
        rw [hdata, hother key hk, hnone]

/-- Witness of C11: adding the expense `Freela` of 70 to the sample state appends one item
with the clock value as id, the value 70 and `planned` 0 after the expense already there. -/
theorem addTransaction_appends_witness :
    isMonthKey (sampleState exampleMonth).currentMonth = true ∧
    validForm.name ≠ "" ∧ validForm.value.isNaN = false ∧
    ∃ st' newItem,
      addTransaction 1700000000000 validForm "expenses" (sampleState exampleMonth) = .done st' ∧
      newItem.id = 1700000000000 ∧ newItem.value = 70 ∧ newItem.planned = some 0 ∧
      itemsOf st'.data "2024-01" "expenses" = [sampleItem 3 30 none, newItem] := by
  refine ⟨by decide, by decide, rfl, ?_⟩
  obtain ⟨st', newItem, h1, h2, _, h4, h5, h6, _, _, _, _⟩ :=
    addTransaction_appends 1700000000000 validForm "expenses" (sampleState exampleMonth)
      _ _ (Or.inr (Or.inl rfl)) (by decide) rfl rfl
      (by
        intro m h
        have h' : (sampleState exampleMonth).data.month (sampleState exampleMonth).currentMonth
            = some exampleMonth := by decide
        rw [h'] at h
        cases h
        decide)
      (by decide) rfl
  exact ⟨st', newItem, h1, h2, h4, h5 rfl, h6⟩

/-! ## Removing a transaction -/

theorem itemsOf_of_month (data : Doc) (key : String) (incomes expenses investments : List Item)
    (hm : data.month key = some ⟨some incomes, some expenses, some investments⟩) :
    itemsOf data key "incomes" = incomes ∧ itemsOf data key "expenses" = expenses ∧
      itemsOf data key "investments" = investments := by
  simp [itemsOf, hm, ensureList]

theorem withMonth_same (st : State) (m : Month)
    (hm : st.data.month st.currentMonth = some m) : withMonth st m = st := by
  have h : setEntry st.data.entries st.currentMonth m = st.data.entries :=
    setEntry_of_lookup _ _ _ hm
  simp [withMonth, h]

theorem render_withMonth (st : State) (a b d : List Item) (s : Settings) (c : Colors)
    (editing : Option EditingItem)
    (hs : st.data.settings = some s) (hc : s.colors = some c) :
    ∃ st', render { withMonth st ⟨some a, some b, some d⟩ with editingItem := editing }
        = .done st' ∧
      st'.data = (withMonth st ⟨some a, some b, some d⟩).data := by
  obtain ⟨st', h1, h2, _⟩ := render_done_data
    { withMonth st ⟨some a, some b, some d⟩ with editingItem := editing } a b d s c
    (by
      show (withMonth st ⟨some a, some b, some d⟩).data.month st.currentMonth = _
      rw [month_withMonth]; simp)
    (by simpa [withMonth] using hs) hc
  exact ⟨st', h1, h2⟩

theorem removeTransaction_done (type : String) (id : Int) (st : State)
    (incomes expenses investments : List Item) (s : Settings) (c : Colors)
    (htype : type = "incomes" ∨ type = "expenses" ∨ type = "investments")
    (hm : st.data.month st.currentMonth = some ⟨some incomes, some expenses, some investments⟩)
    (hs : st.data.settings = some s) (hc : s.colors = some c) :
    ∃ st', removeTransaction type id st = .done st' ∧
      itemsOf st'.data st.currentMonth type
        = (itemsOf st.data st.currentMonth type).filter (fun item => item.id != id) ∧
      (∀ kind, kind ≠ type →
        itemsOf st'.data st.currentMonth kind = itemsOf st.data st.currentMonth kind) ∧
      (∀ key, key ≠ st.currentMonth → st'.data.month key = st.data.month key) ∧
      ((itemsOf st.data st.currentMonth type).filter (fun item => item.id != id)
          = itemsOf st.data st.currentMonth type → st'.data = st.data) := by
  obtain ⟨hi, he, hv⟩ := itemsOf_of_month st.data st.currentMonth _ _ _ hm
  have hkinds : ∀ kind, kind ≠ "incomes" → kind ≠ "expenses" → kind ≠ "investments" →
      itemsOf st.data st.currentMonth kind = [] := by
    intro kind h1 h2 h3
    simp [itemsOf, hm, h1, h2, h3]
  rcases htype with h | h | h
  · subst h
    obtain ⟨st', h1, h2⟩ := render_withMonth st
      (incomes.filter (fun item => item.id != id)) expenses investments s c st.editingItem hs hc
    refine ⟨st', ?_, ?_, ?_, ?_, ?_⟩
    · simp only [removeTransaction, hm, Month.get, Month.set, if_true]
      exact h1
    · rw [h2, itemsOf_withMonth, hi]
      simp [ensureList]
    · intro kind hk
      rw [h2, itemsOf_withMonth]
      by_cases hk2 : kind = "expenses"
      · subst hk2; simp [ensureList, he]
      · by_cases hk3 : kind = "investments"
        · subst hk3; simp [ensureList, hv]
        · simp [hk, hk2, hk3, hkinds kind hk hk2 hk3]
    · intro key hkey
      rw [h2, month_withMonth, if_neg hkey]
    · intro hf
      rw [hi] at hf
      rw [h2, hf, withMonth_same st _ hm]
  · subst h
    obtain ⟨st', h1, h2⟩ := render_withMonth st incomes
      (expenses.filter (fun item => item.id != id)) investments s c st.editingItem hs hc
    have hne : ¬ ("expenses" = "incomes") := by decide
    refine ⟨st', ?_, ?_, ?_, ?_, ?_⟩
    · simp only [removeTransaction, hm, Month.get, Month.set, hne, if_true, if_false]
      exact h1
    · rw [h2, itemsOf_withMonth, he]
      simp [ensureList]
    · intro kind hk
      rw [h2, itemsOf_withMonth]
      by_cases hk2 : kind = "incomes"
      · subst hk2; simp [ensureList, hi]
      · by_cases hk3 : kind = "investments"
        · subst hk3; simp [ensureList, hv]
        · simp [hk, hk2, hk3, hkinds kind hk2 hk hk3]
    · intro key hkey
      rw [h2, month_withMonth, if_neg hkey]
    · intro hf
      rw [he] at hf
      rw [h2, hf, withMonth_same st _ hm]
  · subst h
    obtain ⟨st', h1, h2⟩ := render_withMonth st incomes expenses
      (investments.filter (fun item => item.id != id)) s c st.editingItem hs hc
    have hne : ¬ ("investments" = "incomes") := by decide
    have hne' : ¬ ("investments" = "expenses") := by decide
    refine ⟨st', ?_, ?_, ?_, ?_, ?_⟩
    · simp only [removeTransaction, hm, Month.get, Month.set, hne, hne', if_true, if_false]
      exact h1
    · rw [h2, itemsOf_withMonth, hv]
      simp [ensureList]
    · intro kind hk
      rw [h2, itemsOf_withMonth]
      by_cases hk2 : kind = "incomes"
      · subst hk2; simp [ensureList, hi]
      · by_cases hk3 : kind = "expenses"
        · subst hk3; simp [ensureList, he]
        · simp [hk, hk2, hk3, hkinds kind hk2 hk3 hk]
    · intro key hkey
      rw [h2, month_withMonth, if_neg hkey]
    · intro hf
      rw [hv] at hf
      rw [h2, hf, withMonth_same st _ hm]

theorem filter_id_of_forall_ne (list : List Item) (id : Int) (h : ∀ item ∈ list, item.id ≠ id) :
    list.filter (fun item => item.id != id) = list := by
  rw [List.filter_eq_self]
  intro item hitem
  simpa using h item hitem

theorem filter_id_eq_eraseP (list : List Item) (id : Int) (hnd : (list.map Item.id).Nodup) :
    list.filter (fun item => item.id != id) = list.eraseP (fun item => item.id == id) := by
  induction list with
  | nil => rfl
  | cons x rest ih =>
    rw [List.map_cons, List.nodup_cons] at hnd
    by_cases hx : x.id = id
    · have hrest : ∀ item ∈ rest, item.id ≠ id := by
        intro item hitem e
        exact hnd.1 (List.mem_map.mpr ⟨item, hitem, by rw [e, hx]⟩)
      simp [List.filter_cons, hx, filter_id_of_forall_ne rest id hrest]
    · simp [List.filter_cons, hx, ih hnd.2]

/-- C12. Removing an id that no item of the collection carries is a no-op: on a migrated
document, for each of the three kinds, when no item of the active month's collection has the
given id, `removeTransaction` runs to its end without an error and leaves the whole document,
and so the collection with its N items in their order, as it was. -/
theorem removeTransaction_missing_id (type : String) (id : Int) (st : State)
    (incomes expenses investments : List Item) (s : Settings) (c : Colors)
    (htype : type = "incomes" ∨ type = "expenses" ∨ type = "investments")
    (hm : st.data.month st.currentMonth = some ⟨some incomes, some expenses, some investments⟩)
    (hs : st.data.settings = some s) (hc : s.colors = some c)
    (hid : ∀ item ∈ itemsOf st.data st.currentMonth type, item.id ≠ id) :
    ∃ st', removeTransaction type id st = .done st' ∧ st'.data = st.data ∧
      itemsOf st'.data st.currentMonth type = itemsOf st.data st.currentMonth type ∧
      (itemsOf st'.data st.currentMonth type).length
        = (itemsOf st.data st.currentMonth type).length := by
  obtain ⟨st', h1, _, _, _, h5⟩ :=
    removeTransaction_done type id st incomes expenses investments s c htype hm hs hc
  have hdata : st'.data = st.data := h5 (filter_id_of_forall_ne _ id hid)
  exact ⟨st', h1, hdata, by rw [hdata], by rw [hdata]⟩

/-- Witness of C12: removing the id 99, which no income of the sample month has, leaves the
two incomes in place. -/
theorem removeTransaction_missing_id_witness :
    (∀ item ∈ itemsOf (sampleState exampleMonth).data "2024-01" "incomes", item.id ≠ 99) ∧
    ∃ st', removeTransaction "incomes" 99 (sampleState exampleMonth) = .done st' ∧
      itemsOf st'.data "2024-01" "incomes" = [sampleItem 1 100 none, sampleItem 2 50 none] := by
  have hid : ∀ item ∈ itemsOf (sampleState exampleMonth).data "2024-01" "incomes",
      item.id ≠ 99 := by decide
  refine ⟨hid, ?_⟩
  obtain ⟨st', h1, _, h3, _⟩ :=
    removeTransaction_missing_id "incomes" 99 (sampleState exampleMonth) _ _ _ _ _
      (Or.inl rfl) rfl rfl rfl hid
  exact ⟨st', h1, h3.trans (by decide)⟩

/-- C13, counterexample. In a month whose two incomes carry the same id 7, removing the id 7
empties the collection, while erasing the first matching item would leave the second one. -/
theorem removeTransaction_first_only_counterexample :
    itemsOf (removeTransaction "incomes" 7 (sampleState duplicateIdMonth)).state.data
        "2024-01" "incomes" = [] ∧
    (itemsOf (sampleState duplicateIdMonth).data "2024-01" "incomes").eraseP
        (fun item => item.id == 7) = [sampleItem 7 50 none] := by
  decide

/-- C13, amended. On a migrated document, for each of the three kinds and every id,
`removeTransaction` removes every item whose id matches: the resulting collection is the
original restricted to the items with another id, in their original order, and the other
collections and months are unchanged. When the ids of the collection are distinct, the result
is the original with its first matching item erased, and its length drops by exactly one when
a match exists. -/
theorem removeTransaction_filters (type : String) (id : Int) (st : State)
    (incomes expenses investments : List Item) (s : Settings) (c : Colors)
    (htype : type = "incomes" ∨ type = "expenses" ∨ type = "investments")
    (hm : st.data.month st.currentMonth = some ⟨some incomes, some expenses, some investments⟩)
    (hs : st.data.settings = some s) (hc : s.colors = some c) :
    ∃ st', removeTransaction type id st = .done st' ∧
      itemsOf st'.data st.currentMonth type
        = (itemsOf st.data st.currentMonth type).filter (fun item => item.id ≠ id) ∧
      (∀ kind, kind ≠ type →
        itemsOf st'.data st.currentMonth kind = itemsOf st.data st.currentMonth kind) ∧
      (∀ key, key ≠ st.currentMonth → st'.data.month key = st.data.month key) ∧
      (((itemsOf st.data st.currentMonth type).map Item.id).Nodup →
        itemsOf st'.data st.currentMonth type
          = (itemsOf st.data st.currentMonth type).eraseP (fun item => item.id == id) ∧
        ((∃ item ∈ itemsOf st.data st.currentMonth type, item.id = id) →
          (itemsOf st'.data st.currentMonth type).length + 1
            = (itemsOf st.data st.currentMonth type).length)) := by
  obtain ⟨st', h1, h2, h3, h4, _⟩ :=
    removeTransaction_done type id st incomes expenses investments s c htype hm hs hc
  have hfilter : (itemsOf st.data st.currentMonth type).filter (fun item => item.id != id)
      = (itemsOf st.data st.currentMonth type).filter (fun item => item.id ≠ id) := by
    apply List.filter_congr
    intro item _
    by_cases h : item.id = id <;> simp [h]
  refine ⟨st', h1, h2.trans hfilter, h3, h4, ?_⟩
  intro hnd
  have he := h2.trans (filter_id_eq_eraseP _ id hnd)
  refine ⟨he, ?_⟩
  rintro ⟨item, hitem, hid⟩
  rw [he, List.length_eraseP_of_mem hitem (by simpa using hid)]
  have hpos : 0 < (itemsOf st.data st.currentMonth type).length :=
    List.length_pos_of_mem hitem
  omega

/-- Witness of C13, amended: removing the id 1 from the sample month leaves the income 2. -/
theorem removeTransaction_filters_witness :
    ∃ st', removeTransaction "incomes" 1 (sampleState exampleMonth) = .done st' ∧
      itemsOf st'.data "2024-01" "incomes" = [sampleItem 2 50 none] := by
  obtain ⟨st', h1, h2, _⟩ :=
    removeTransaction_filters "incomes" 1 (sampleState exampleMonth) _ _ _ _ _
      (Or.inl rfl) rfl rfl rfl
  exact ⟨st', h1, h2.trans (by decide)⟩

/-! ## Editing a transaction -/

theorem updateFound_of_find (id : Int) (f : Item → Item) (list : List Item) (item : Item)
    (hfind : list.find? (fun i => i.id == id) = some item) :
    ∃ pre post, list = pre ++ item :: post ∧ (∀ x ∈ pre, x.id ≠ id) ∧
      updateFound id f list = pre ++ f item :: post := by
  induction list with
  | nil => simp at hfind
  | cons x rest ih =>
    by_cases hx : x.id = id
    · have hxi : x = item := by simpa [List.find?_cons, hx] using hfind
      subst hxi
      exact ⟨[], rest, rfl, by simp, by simp [updateFound, hx]⟩
    · have hfind' : rest.find? (fun i => i.id == id) = some item := by
        simpa [List.find?_cons, hx] using hfind
      obtain ⟨pre, post, h1, h2, h3⟩ := ih hfind'
      refine ⟨x :: pre, post, by rw [h1]; rfl, ?_, by simp [updateFound, hx, h3]⟩
      intro y hy
      rcases List.mem_cons.mp hy with e | e
      · rw [e]; exact hx
      · exact h2 y e

theorem applyEdit_eq (form : EditForm) (type : String) (name : String) (value planned : Number)
    (date : String) (item : Item)
    (htype : type = "incomes" ∨ type = "expenses" ∨ type = "investments")
    (hname : form.nameField = some name) (hvalue : form.valueField = some value)
    (hplanned : type = "expenses" → form.plannedField = some planned)
    (hdate : type ≠ "incomes" → form.dateField = some date) :
    applyEdit form type item =
      { item with
        name := if name ≠ "" then name else item.name
        value := if value.truthy then value else item.value
        planned :=
          if type = "expenses" then (if planned.truthy then some planned else item.planned)
          else item.planned
        date :=
          if type = "incomes" then item.date
          else if date ≠ "" then some date else item.date } := by
  have hstr : strOr name item.name = if name ≠ "" then name else item.name := by
    by_cases h : name = "" <;> simp [strOr, h]
  have hstro : strOrOpt date item.date = if date ≠ "" then some date else item.date := by
    by_cases h : date = "" <;> simp [strOrOpt, h]
  rcases htype with h | h | h
  · subst h
    simp only [applyEdit, hname, hvalue, if_true, hstr, numOr]
    simp
  · subst h
    have hne : ¬ ("expenses" = "incomes") := by decide
    simp only [applyEdit, hname, hvalue, hplanned rfl, hdate hne, hne, if_true, if_false,
      hstr, numOr, numOrOpt, hstro]
  · subst h
    have hne : ¬ ("investments" = "incomes") := by decide
    have hne' : ¬ ("investments" = "expenses") := by decide
    simp only [applyEdit, hname, hvalue, hdate hne, hne, hne', if_true, if_false,
      hstr, numOr, hstro]

theorem get_of_month (data : Doc) (key type : String) (incomes expenses investments : List Item)
    (htype : type = "incomes" ∨ type = "expenses" ∨ type = "investments")
    (hm : data.month key = some ⟨some incomes, some expenses, some investments⟩) :
    (⟨some incomes, some expenses, some investments⟩ : Month).get type
      = some (itemsOf data key type) := by
  obtain ⟨hi, he, hv⟩ := itemsOf_of_month data key _ _ _ hm
  rcases htype with h | h | h <;> subst h <;> simp [Month.get, hi, he, hv]

theorem render_setCollection (type : String) (st : State)
    (incomes expenses investments : List Item) (s : Settings) (c : Colors)
    (editing : Option EditingItem) (newList : List Item)
    (htype : type = "incomes" ∨ type = "expenses" ∨ type = "investments")
    (hm : st.data.month st.currentMonth = some ⟨some incomes, some expenses, some investments⟩)
    (hs : st.data.settings = some s) (hc : s.colors = some c) :
    ∃ st', render
        { withMonth st ((⟨some incomes, some expenses, some investments⟩ : Month).set type newList)
          with editingItem := editing } = .done st' ∧
      itemsOf st'.data st.currentMonth type = newList ∧
      (∀ kind, kind ≠ type →
        itemsOf st'.data st.currentMonth kind = itemsOf st.data st.currentMonth kind) ∧
      (∀ key, key ≠ st.currentMonth → st'.data.month key = st.data.month key) := by
  obtain ⟨hi, he, hv⟩ := itemsOf_of_month st.data st.currentMonth _ _ _ hm
  have hkinds : ∀ kind, kind ≠ "incomes" → kind ≠ "expenses" → kind ≠ "investments" →
      itemsOf st.data st.currentMonth kind = [] := by
    intro kind h1 h2 h3
    simp [itemsOf, hm, h1, h2, h3]
  have hset : ∃ a b d,
      (⟨some incomes, some expenses, some investments⟩ : Month).set type newList
        = ⟨some a, some b, some d⟩ ∧
      (if type = "incomes" then a else if type = "expenses" then b else d) = newList ∧
      (type ≠ "incomes" → a = incomes) ∧ (type ≠ "expenses" → b = expenses) ∧
      (type ≠ "investments" → d = investments) := by
    rcases htype with h | h | h <;> subst h
    · exact ⟨newList, expenses, investments, by simp [Month.set], by simp, by simp, by simp,
        by simp⟩
    · exact ⟨incomes, newList, investments, by simp [Month.set], by simp, by simp, by simp,
        by simp⟩
    · exact ⟨incomes, expenses, newList, by simp [Month.set], by simp, by simp, by simp,
        by simp⟩
  obtain ⟨a, b, d, hsetEq, hnew, ha, hb, hd⟩ := hset
  rw [hsetEq]
  obtain ⟨st', h1, h2⟩ := render_withMonth st a b d s c editing hs hc
  refine ⟨st', h1, ?_, ?_, ?_⟩
  · rw [h2, itemsOf_withMonth]
    rcases htype with h | h | h <;> subst h <;> simp_all [ensureList]
  · intro kind hk
    rw [h2, itemsOf_withMonth]
    by_cases hk1 : kind = "incomes"
    · subst hk1
      simp [ensureList, hi, ha (fun e => hk e.symm)]
    · by_cases hk2 : kind = "expenses"
      · subst hk2
        simp [ensureList, he, hb (fun e => hk e.symm)]
      · by_cases hk3 : kind = "investments"
        · subst hk3
          simp [ensureList, hv, hd (fun e => hk e.symm)]
        · simp [hk1, hk2, hk3, hkinds kind hk1 hk2 hk3]
  · intro key hkey
    rw [h2, month_withMonth, if_neg hkey]

/-- C14. Overwrite-only-if-truthy edit. On a migrated document, with the edit fields of the
kind present on the page, `saveEdit` runs to its end and changes the first item of the active
month's collection that has the given id, in place: `name` becomes the provided name when that
is non-empty, `value` the provided number when it is neither `NaN` nor a zero, and likewise
`planned` (expenses only) and `date` (expenses and investments); a field whose provided value
is falsy keeps its previous value. The `id`, `color` and `type` of the item, every other item, the other
collections and the other months are unchanged. When no item has the id, the state is left as
it was. -/
theorem saveEdit_overwrites_truthy (form : EditForm) (type : String) (id : Int) (st : State)
    (incomes expenses investments : List Item) (s : Settings) (c : Colors)
    (name : String) (value planned : Number) (date : String)
    (htype : type = "incomes" ∨ type = "expenses" ∨ type = "investments")
    (hm : st.data.month st.currentMonth = some ⟨some incomes, some expenses, some investments⟩)
    (hs : st.data.settings = some s) (hc : s.colors = some c)
    (hname : form.nameField = some name) (hvalue : form.valueField = some value)
    (hplanned : type = "expenses" → form.plannedField = some planned)
    (hdate : type ≠ "incomes" → form.dateField = some date) :
    (∀ item, (itemsOf st.data st.currentMonth type).find? (fun i => i.id == id) = some item →
      ∃ st' pre post, saveEdit form type id st = .done st' ∧
        itemsOf st.data st.currentMonth type = pre ++ item :: post ∧
        (∀ x ∈ pre, x.id ≠ id) ∧
        itemsOf st'.data st.currentMonth type = pre ++
          { item with
            name := if name ≠ "" then name else item.name
            value := if value.truthy then value else item.value
            planned :=
              if type = "expenses" then (if planned.truthy then some planned else item.planned)
              else item.planned
            date :=
              if type = "incomes" then item.date
              else if date ≠ "" then some date else item.date } :: post ∧
        (∀ kind, kind ≠ type →
          itemsOf st'.data st.currentMonth kind = itemsOf st.data st.currentMonth kind) ∧
        (∀ key, key ≠ st.currentMonth → st'.data.month key = st.data.month key)) ∧
    ((∀ item ∈ itemsOf st.data st.currentMonth type, item.id ≠ id) →
      saveEdit form type id st = .done st) := by
  have hget := get_of_month st.data st.currentMonth type _ _ _ htype hm
  constructor
  · intro item hfind
    obtain ⟨pre, post, hsplit, hpre, hupd⟩ :=
      updateFound_of_find id (applyEdit form type) _ item hfind
    obtain ⟨st', h1, h2, h3, h4⟩ := render_setCollection type st incomes expenses investments
      s c none (updateFound id (applyEdit form type) (itemsOf st.data st.currentMonth type))
      htype hm hs hc
    refine ⟨st', pre, post, ?_, hsplit, hpre, ?_, h3, h4⟩
    · simp only [saveEdit, hm, hget, hfind]
      exact h1
    · rw [h2, hupd, applyEdit_eq form type name value planned date item htype hname hvalue
        hplanned hdate]
  · intro hnone
    have hfind : (itemsOf st.data st.currentMonth type).find? (fun i => i.id == id) = none := by
      rw [List.find?_eq_none]
      intro x hx
      simpa using hnone x hx
    simp only [saveEdit, hm, hget, hfind]

/-- Witness of C14: editing the expense 3 of the sample month with a new name, an empty planned
amount, the value 0 and a new date changes the name and the date and keeps the value 30. -/
theorem saveEdit_overwrites_truthy_witness :
    (sampleState exampleMonth).data.month (sampleState exampleMonth).currentMonth
      = some exampleMonth ∧
    ∃ st', saveEdit sampleEditForm "expenses" 3 (sampleState exampleMonth) = .done st' ∧
      itemsOf st'.data "2024-01" "expenses"
        = [{ sampleItem 3 30 none with name := "Aluguel", date := some "2024-01-10" }] := by
  refine ⟨by decide, ?_⟩
  obtain ⟨hfound, _⟩ :=
    saveEdit_overwrites_truthy sampleEditForm "expenses" 3 (sampleState exampleMonth)
      [sampleItem 1 100 none, sampleItem 2 50 none] [sampleItem 3 30 none]
      [sampleItem 4 20 (some "Ações")] ⟨some defaultColors, some "dark"⟩ defaultColors
      "Aluguel" 0 Number.nan "2024-01-10" (Or.inr (Or.inl rfl)) (by decide) rfl rfl rfl rfl
      (fun _ => rfl) (fun _ => rfl)
  obtain ⟨st', pre, post, h1, h2, _, h4, _⟩ := hfound (sampleItem 3 30 none) (by decide)
  have hlist : itemsOf (sampleState exampleMonth).data (sampleState exampleMonth).currentMonth
      "expenses" = [sampleItem 3 30 none] := by decide
  rw [hlist] at h2
  have hpp : pre = [] ∧ post = [] := by
    cases pre with
    | nil => simpa using h2
    | cons x rest =>
      have hlen := congrArg List.length h2
      simp at hlen
  refine ⟨st', h1, ?_⟩
  have hcm : (sampleState exampleMonth).currentMonth = "2024-01" := rfl
  rw [hcm] at h4
  rw [h4, hpp.1, hpp.2]
  decide

/-! ## Backup round trip -/

/-- C15, counterexample. For the migrated legacy sample document, exporting and importing
again loses the `importedAt` stamp and the `migratedFromOldFormat` flag of the metadata, so
the result differs from the document in more than the export timestamp. -/
theorem backup_roundtrip_counterexample :
    withoutExportedAt (migrateData "2024-03-01T00:00:00.000Z"
        (downloadData "2024-02-01T00:00:00.000Z"
          (migrateData "2024-01-01T00:00:00.000Z" legacyDoc)))
      ≠ withoutExportedAt (migrateData "2024-01-01T00:00:00.000Z" legacyDoc) := by
  decide

/-- C15, amended. For every migrated document `D`, running `migrateData` on the export of `D`
built in `downloadData` yields a document with the settings of `D` and the entries of `D`
(every month, collection and item); its metadata is the block written by the export (`app`,
`version`, `logo` and the `exportedAt` stamp), without the `importedAt` stamp and the
`migratedFromOldFormat` flag that `D` carried. -/
theorem backup_roundtrip (t0 t1 t2 : String) (D0 : Doc) :
    (migrateData t2 (downloadData t1 (migrateData t0 D0))).settings
      = (migrateData t0 D0).settings ∧
    (migrateData t2 (downloadData t1 (migrateData t0 D0))).entries
      = (migrateData t0 D0).entries ∧
    (migrateData t2 (downloadData t1 (migrateData t0 D0))).metadata
      = some
        { app := some "FinTec Pro"
          version := some "1.0"
          logo := some "logofinantec.png"
          importedAt := none
          exportedAt := some t1
          migratedFromOldFormat := none } := by
  refine ⟨?_, ?_, ?_⟩
  · simp only [migrateData, downloadData, migrateSettings_fixed]
  · simp only [migrateData, downloadData, Option.isNone_some, List.map_map]
    apply List.map_congr_left
    intro e _
    exact migrateEntry_fixed _ e
  · simp only [migrateData, downloadData, migrateMetadata]

/-! ## Reserva bucket and ledger contents under migration -/

/-- C16. For every list of investments, the bucket `Reserva` of the breakdown is the sum of
`value` over the investments whose type is `Reserva`, the empty string or absent, added from 0
in list order with the addition of JavaScript numbers. -/
theorem investmentBreakdown_reserva (investments : List Item) :
    (investmentBreakdown investments).lookup "Reserva"
      = some (((investments.filter (fun item =>
          item.type = some "Reserva" ∨ item.type = some "" ∨ item.type = none)).map
            Item.value).foldl (· + ·) 0) := by
  have e0 : investments.filter (fun item => effectiveType item = "Reserva")
      = investments.filter (fun item =>
          item.type = some "Reserva" ∨ item.type = some "" ∨ item.type = none) := by
    apply List.filter_congr
    intro item _
    simp only [effectiveType_eq_reserva]
  rw [investmentBreakdown_eq, List.lookup_cons_self, e0]

theorem total_map_fillColor (c : Option String) (xs : List Item) :
    total (xs.map (fillColor c)) = total xs := by
  rw [total_eq_foldl, total_eq_foldl, List.map_map]
  congr 1
  apply List.map_congr_left
  intro x _
  by_cases h : truthy x.color = true <;> simp [fillColor, h]

theorem migrateMonth_contents (b : Bool) (m : Month) :
    ∃ incomes expenses investments,
      migrateMonth b m = ⟨some incomes, some expenses, some investments⟩ ∧
      incomes.map withoutColor = (ensureList m.incomes).map withoutColor ∧
      expenses.map withoutColor = (ensureList m.expenses).map withoutColor ∧
      investments.map withoutColor = (ensureList m.investments).map withoutColor ∧
      total incomes = total (ensureList m.incomes) ∧
      total expenses = total (ensureList m.expenses) ∧
      total investments = total (ensureList m.investments) := by
  cases b
  · exact ⟨ensureList m.incomes, ensureList m.expenses, ensureList m.investments,
      by simp [migrateMonth], rfl, rfl, rfl, rfl, rfl, rfl⟩
  · exact ⟨(ensureList m.incomes).map (fillColor defaultColors.income),
      (ensureList m.expenses).map (fillColor defaultColors.expense),
      (ensureList m.investments).map (fillColor defaultColors.invest),
      by simp [migrateMonth], map_withoutColor_fillColor _ _, map_withoutColor_fillColor _ _,
      map_withoutColor_fillColor _ _, total_map_fillColor _ _, total_map_fillColor _ _,
      total_map_fillColor _ _⟩

/-- C17. Migration does not disturb the ledger contents. Under every month key of the
document each collection of the migrated entry holds the items of the input collection (none
when it was absent), as many and in the same order, equal in every field other than `color`;
hence the three totals and the balance of the month are the same before and after. An entry
whose key is not a month key is left as it was, and the keys of the document keep their
order. -/
theorem migrateData_preserves_ledger (now : String) (D : Doc) :
    (∀ key m, isMonthKey key = true → D.month key = some m →
      ∃ incomes expenses investments,
        (migrateData now D).month key = some ⟨some incomes, some expenses, some investments⟩ ∧
        incomes.length = (ensureList m.incomes).length ∧
        expenses.length = (ensureList m.expenses).length ∧
        investments.length = (ensureList m.investments).length ∧
        incomes.map withoutColor = (ensureList m.incomes).map withoutColor ∧
        expenses.map withoutColor = (ensureList m.expenses).map withoutColor ∧
        investments.map withoutColor = (ensureList m.investments).map withoutColor ∧
        total incomes = total (ensureList m.incomes) ∧
        total expenses = total (ensureList m.expenses) ∧
        total investments = total (ensureList m.investments) ∧
        total incomes - (total expenses + total investments)
          = total (ensureList m.incomes)
            - (total (ensureList m.expenses) + total (ensureList m.investments))) ∧
    (∀ key, isMonthKey key = false → (migrateData now D).month key = D.month key) ∧
    (migrateData now D).entries.map Prod.fst = D.entries.map Prod.fst := by
  refine ⟨?_, ?_, ?_⟩
  · intro key m hkey hm
    obtain ⟨a, b, d, h0, h1, h2, h3, h4, h5, h6⟩ := migrateMonth_contents D.settings.isNone m
    refine ⟨a, b, d, ?_, ?_, ?_, ?_, h1, h2, h3, h4, h5, h6, by rw [h4, h5, h6]⟩
    · rw [month_migrateData, hm]
      simp [hkey, h0]
    · simpa using congrArg List.length h1
    · simpa using congrArg List.length h2
    · simpa using congrArg List.length h3
  · intro key hkey
    rw [month_migrateData]
    cases D.month key <;> simp [hkey]
  · simp only [migrateData, List.map_map]
    apply List.map_congr_left
    intro e _
    obtain ⟨k, v⟩ := e
    simp [migrateEntry_eq]

end Finantec
